import Mathlib

/-!
# Verification of the NoBroker card discovery and field-extraction pipeline

Shallow embedding of `src/Crawler_3/nobroker_scraper.py` (class `NoBrokerScraper`):
the card locator cascade, the card-validity predicate, element fingerprinting,
the per-field extraction cascades, the record validator, and the crawl driver
loop (`extract_all_listings`).

Modelling conventions:
* Python strings are Lean `String`s; the Python primitives `in`, `lower()`,
  `upper()`, `strip()`, `title()`, `isdigit()`, `split('\n')` are implemented
  below (`occurs`, `pyLower`, `pyUpper`, `pyStrip`, `pyTitle`, `pyIsDigit`,
  `pyLines`).
* `re.search` / `re.findall` calls are implemented by bespoke matchers (one per
  pattern of the source, with the source pattern quoted in a comment), all
  scanning for the leftmost match exactly as `re` does for these patterns.
* DOM reads (Selenium `find_elements`, `.text`, `.get_attribute`, geometry) are
  the environment: they enter the model as explicit input data, with an
  `Option` wrapping each read that the source guards with a `try/except`
  (`none` models the read raising).
* Python `set` values are modelled as first-occurrence deduplicated lists:
  membership and freedom from duplicates agree with the source; only the
  (unspecified) iteration order differs.
-/

namespace Crawler

/-! ## Python string primitives -/

/-- Does the second list start with the first one? -/
def listStartsWith : List Char → List Char → Bool
  | [], _ => true
  | _ :: _, [] => false
  | a :: as, b :: bs => a == b && listStartsWith as bs

/-- Does `needle` occur as a contiguous run inside `hay`? -/
def listInfix (needle : List Char) : List Char → Bool
  | [] => listStartsWith needle []
  | c :: cs => listStartsWith needle (c :: cs) || listInfix needle cs

/-- Python `needle in hay` (substring test). -/
def occurs (needle hay : String) : Bool :=
  listInfix needle.toList hay.toList

/-- Python `str.lower()` (ASCII, as in the source's vocabulary matching). -/
def pyLower (s : String) : String :=
  ⟨s.toList.map Char.toLower⟩

/-- Python `str.upper()`. -/
def pyUpper (s : String) : String :=
  ⟨s.toList.map Char.toUpper⟩

/-- Whitespace-stripping on both ends of a character list. -/
def stripList (l : List Char) : List Char :=
  ((l.dropWhile Char.isWhitespace).reverse.dropWhile Char.isWhitespace).reverse

/-- Python `str.strip()`. -/
def pyStrip (s : String) : String :=
  ⟨stripList s.toList⟩

/-- Core of Python `str.title()`: the boolean tracks whether the previous
character was alphabetic. -/
def pyTitleAux : Bool → List Char → List Char
  | _, [] => []
  | prevAlpha, c :: cs =>
    (if c.isAlpha then (if prevAlpha then c.toLower else c.toUpper) else c)
      :: pyTitleAux c.isAlpha cs

/-- Python `str.title()`. -/
def pyTitle (s : String) : String :=
  ⟨pyTitleAux false s.toList⟩

/-- Python `str.isdigit()`: non-empty and all digits. -/
def pyIsDigit (s : String) : Bool :=
  !s.isEmpty && s.toList.all Char.isDigit

/-- Splitting a character list on newlines (`str.split('\n')` keeps empty
segments). -/
def splitNlAux : List Char → List Char → List String
  | [], cur => [⟨cur.reverse⟩]
  | c :: cs, cur =>
    if c == '\n' then (⟨cur.reverse⟩ : String) :: splitNlAux cs []
    else splitNlAux cs (c :: cur)

/-- Python `str.split('\n')`. -/
def pyLines (s : String) : List String :=
  splitNlAux s.toList []

/-- Python `str.startswith(p)`. -/
def pyStartsWith (p s : String) : Bool :=
  listStartsWith p.toList s.toList

/-- Python `int(...)` on a digit string. -/
def digitsToNat (s : String) : Nat :=
  s.toList.foldl (fun n c => n * 10 + (Char.toNat c - 48)) 0

/-- Python `sep.join(items)`. -/
def joinSep (sep : String) : List String → String
  | [] => ""
  | [x] => x
  | x :: xs => x ++ sep ++ joinSep sep xs

/-! ## Regular-expression matching

The source uses `re.search` / `re.findall` with a fixed set of patterns.  Each
pattern is implemented as an "at-position" matcher (tried at one position of
the subject, receiving the previous character for `\b` tests) and run by the
leftmost-search driver `reFirst` (for `re.search`) or by the non-overlapping
scan driver `reAll` (for `re.findall`). -/

/-- Word character for `\b` (Python `\w`: letters, digits, underscore). -/
def isWordChar (c : Char) : Bool := c.isAlphanum || c == '_'

/-- Is there a word boundary between a character and the next one
(`none` = outside the subject)? -/
def boundary (left right : Option Char) : Bool :=
  (match left with | some c => isWordChar c | none => false) !=
  (match right with | some c => isWordChar c | none => false)

/-- `\b` holds after a match ending in a word character. -/
def noWordNext : List Char → Bool
  | [] => true
  | c :: _ => !isWordChar c

/-- Case-insensitive literal test at the head of the subject. -/
def litCIAt : List Char → List Char → Bool
  | [], _ => true
  | _ :: _, [] => false
  | p :: ps, c :: cs => p.toLower == c.toLower && litCIAt ps cs

/-- Case-sensitive literal test at the head of the subject. -/
def litAt : List Char → List Char → Bool
  | [], _ => true
  | _ :: _, [] => false
  | p :: ps, c :: cs => p == c && litAt ps cs

/-- Leftmost-match driver (`re.search`): try the at-position matcher at every
position, left to right, passing the previous character along. -/
def reFirstAux {α : Type} (m : Option Char → List Char → Option α) :
    Option Char → List Char → Option α
  | prev, [] => m prev []
  | prev, c :: cs =>
    match m prev (c :: cs) with
    | some r => some r
    | none => reFirstAux m (some c) cs

/-- `re.search pattern s`, returning the matcher's payload of the leftmost
match. -/
def reFirst {α : Type} (m : Option Char → List Char → Option α) (s : String) :
    Option α :=
  reFirstAux m none s.toList

/-- Non-overlapping scan driver (`re.findall`): collect payloads left to
right, resuming after the end of each match.  The matcher also reports the
number of characters its match consumed.  Fuel is the subject length. -/
def reAllAux {α : Type} (m : Option Char → List Char → Option (Nat × α)) :
    Nat → Option Char → List Char → List α
  | 0, _, _ => []
  | _ + 1, prev, [] =>
    match m prev [] with
    | _ => []
  | fuel + 1, prev, c :: cs =>
    match m prev (c :: cs) with
    | none => reAllAux m fuel (some c) cs
    | some (n, a) =>
      if n == 0 then [a]
      else a :: reAllAux m fuel (((c :: cs).take n).getLast?) ((c :: cs).drop n)

/-- `re.findall pattern s` (payload list of the matcher). -/
def reAll {α : Type} (m : Option Char → List Char → Option (Nat × α)) (s : String) :
    List α :=
  reAllAux m (s.toList.length + 1) none s.toList

/-! ## Pattern matchers for `_extract_basic_info_improved` -/

/-- Length of the leading whitespace run (`\s*`). -/
def wsTake (l : List Char) : Nat := (l.takeWhile Char.isWhitespace).length

/-- Length of the leading digit run (`\d*`). -/
def digitsTake (l : List Char) : Nat := (l.takeWhile Char.isDigit).length

/-- Character class `[0-9,\.]`. -/
def priceClass (c : Char) : Bool := c.isDigit || c == ',' || c == '.'

/-- Character class `[0-9,]`. -/
def emiClass (c : Char) : Bool := c.isDigit || c == ','

/-- Character class `[A-Za-z\s]`. -/
def alphaSpace (c : Char) : Bool := c.isAlpha || c.isWhitespace

/-- Matcher for `(\d+)\s*LIT` (case-insensitive), payload = group 1. -/
def numBeforeAt (lit : String) (_ : Option Char) (l : List Char) : Option String :=
  let d := digitsTake l
  if d == 0 then none
  else
    let r1 := l.drop d
    let w := wsTake r1
    if litCIAt lit.toList (r1.drop w) then some ⟨l.take d⟩ else none

/-- First alternative of `(Lacs?|Crores?|L|Cr)\b` matching at the head
(tried in the regex backtracking order), returning its length. -/
def altWithBoundary : List String → List Char → Option Nat
  | [], _ => none
  | u :: us, l =>
    if litCIAt u.toList l && noWordNext (l.drop u.length) then some u.length
    else altWithBoundary us l

def priceUnits : List String := ["lacs", "lac", "crores", "crore", "l", "cr"]

/-- `r'₹\s*([0-9,\.]+)\s*(Lacs?|Crores?|L|Cr)\b'`, payload = group 0. -/
def pricePat1At (_ : Option Char) (l : List Char) : Option String :=
  match l with
  | '₹' :: r0 =>
    let w1 := wsTake r0
    let r1 := r0.drop w1
    let d := (r1.takeWhile priceClass).length
    if d == 0 then none
    else
      let r2 := r1.drop d
      let w2 := wsTake r2
      match altWithBoundary priceUnits (r2.drop w2) with
      | none => none
      | some u => some ⟨l.take (1 + w1 + d + w2 + u)⟩
  | _ => none

/-- `r'([0-9,\.]+)\s*(Lacs?|Crores?|L|Cr)\b'`, payload = group 0. -/
def pricePat2At (_ : Option Char) (l : List Char) : Option String :=
  let d := (l.takeWhile priceClass).length
  if d == 0 then none
  else
    let r2 := l.drop d
    let w2 := wsTake r2
    match altWithBoundary priceUnits (r2.drop w2) with
    | none => none
    | some u => some ⟨l.take (d + w2 + u)⟩

/-- Largest `k ≤ n` with `k ≥ 1` such that a word boundary separates the
first `k` characters of `l` from the rest (the regex engine's backtracking
over a greedy character class followed by `\b`). -/
def backBoundary (l : List Char) : Nat → Option Nat
  | 0 => none
  | k + 1 =>
    if boundary ((l.take (k + 1)).getLast?) ((l.drop (k + 1)).head?) then some (k + 1)
    else backBoundary l k

/-- `r'₹\s*([0-9,\.]+)\b'`, payload = group 0. -/
def pricePat3At (_ : Option Char) (l : List Char) : Option String :=
  match l with
  | '₹' :: r0 =>
    let w1 := wsTake r0
    let r1 := r0.drop w1
    let run := (r1.takeWhile priceClass).length
    match backBoundary r1 run with
    | none => none
    | some k => some ⟨l.take (1 + w1 + k)⟩
  | _ => none

/-- The price regex cascade of `_extract_basic_info_improved`
(first matching pattern wins; payload is `match.group(0)`). -/
def priceFromText (t : String) : String :=
  match reFirst pricePat1At t with
  | some s => s
  | none =>
    match reFirst pricePat2At t with
    | some s => s
    | none =>
      match reFirst pricePat3At t with
      | some s => s
      | none => ""

/-- `r'₹\s*([0-9,]+)\s*/?\s*month'` (IGNORECASE), payload = group 0. -/
def emiPat1At (_ : Option Char) (l : List Char) : Option String :=
  match l with
  | '₹' :: r0 =>
    let w1 := wsTake r0
    let r1 := r0.drop w1
    let d := (r1.takeWhile emiClass).length
    if d == 0 then none
    else
      let r2 := r1.drop d
      let w2 := wsTake r2
      match r2.drop w2 with
      | '/' :: r3 =>
        let w3 := wsTake r3
        if litCIAt "month".toList (r3.drop w3) then
          some ⟨l.take (1 + w1 + d + w2 + 1 + w3 + 5)⟩
        else none
      | r3 =>
        if litCIAt "month".toList r3 then some ⟨l.take (1 + w1 + d + w2 + 5)⟩
        else none
  | _ => none

/-- `r'EMI[:\s]*₹\s*([0-9,]+)'`, payload = group 0. -/
def emiPat2At (_ : Option Char) (l : List Char) : Option String :=
  if litCIAt "emi".toList l then
    let r1 := l.drop 3
    let p := (r1.takeWhile (fun c => c == ':' || c.isWhitespace)).length
    match r1.drop p with
    | '₹' :: r2 =>
      let w := wsTake r2
      let d := ((r2.drop w).takeWhile emiClass).length
      if d == 0 then none else some ⟨l.take (3 + p + 1 + w + d)⟩
    | _ => none
  else none

/-- `r'([0-9,]+)\s*/Month'` (IGNORECASE), payload = group 0. -/
def emiPat3At (_ : Option Char) (l : List Char) : Option String :=
  let d := (l.takeWhile emiClass).length
  if d == 0 then none
  else
    let r1 := l.drop d
    let w := wsTake r1
    if litCIAt "/month".toList (r1.drop w) then some ⟨l.take (d + w + 6)⟩
    else none

/-- The EMI regex cascade. -/
def emiFromText (t : String) : String :=
  match reFirst emiPat1At t with
  | some s => s
  | none =>
    match reFirst emiPat2At t with
    | some s => s
    | none =>
      match reFirst emiPat3At t with
      | some s => s
      | none => ""

/-- The BHK cascade: `(\d+)\s*BHK`, `(\d+)\s*RK`, `(\d+)\s*Bedroom`;
on a match the source stores `f"{match.group(1)} BHK"`. -/
def apartmentTypeFromText (t : String) : String :=
  match reFirst (numBeforeAt "bhk") t with
  | some d => d ++ " BHK"
  | none =>
    match reFirst (numBeforeAt "rk") t with
    | some d => d ++ " BHK"
    | none =>
      match reFirst (numBeforeAt "bedroom") t with
      | some d => d ++ " BHK"
      | none => ""

/-- Greedy `\d{2,5}` followed by the given continuation, with the regex
engine's backtracking from the longest candidate down to two digits;
payload = the digit group. -/
def areaTryK (cont : List Char → Bool) (l : List Char) : Nat → Option String
  | 0 => none
  | k + 1 =>
    if k + 1 < 2 then none
    else if cont (l.drop (k + 1)) then some ⟨l.take (k + 1)⟩
    else areaTryK cont l k

def areaDigitsAt (cont : List Char → Bool) (_ : Option Char) (l : List Char) :
    Option String :=
  areaTryK cont l (min (digitsTake l) 5)

/-- Continuation of `r'(\d{2,5})\s*sq\.?\s*ft\b'` after the digit group. -/
def areaCont1 (r : List Char) : Bool :=
  let w := wsTake r
  let r1 := r.drop w
  litCIAt "sq".toList r1 &&
    (let r2 := r1.drop 2
     let dot := if r2.head? == some '.' then 1 else 0
     let r3 := r2.drop dot
     let w2 := wsTake r3
     let r4 := r3.drop w2
     litCIAt "ft".toList r4 && noWordNext (r4.drop 2))

/-- Continuation of `r'(\d{2,5})\s*sqft\b'`. -/
def areaCont2 (r : List Char) : Bool :=
  let w := wsTake r
  let r1 := r.drop w
  litCIAt "sqft".toList r1 && noWordNext (r1.drop 4)

/-- Continuation of `r'(\d{2,5})\s*sq\s*metres'`. -/
def areaCont3 (r : List Char) : Bool :=
  let w := wsTake r
  let r1 := r.drop w
  litCIAt "sq".toList r1 &&
    (let r2 := r1.drop 2
     let w2 := wsTake r2
     litCIAt "metres".toList (r2.drop w2))

/-- Continuation of `r'(\d{2,5})\s*sqm\b'`. -/
def areaCont4 (r : List Char) : Bool :=
  let w := wsTake r
  let r1 := r.drop w
  litCIAt "sqm".toList r1 && noWordNext (r1.drop 3)

/-- The buildup-area cascade; on a match the source stores
`f"{match.group(1)} sqft"`. -/
def buildupAreaFromText (t : String) : String :=
  match reFirst (areaDigitsAt areaCont1) t with
  | some d => d ++ " sqft"
  | none =>
    match reFirst (areaDigitsAt areaCont2) t with
    | some d => d ++ " sqft"
    | none =>
      match reFirst (areaDigitsAt areaCont3) t with
      | some d => d ++ " sqft"
      | none =>
        match reFirst (areaDigitsAt areaCont4) t with
        | some d => d ++ " sqft"
        | none => ""

def facingAlts : List String := ["north", "south", "east", "west", "ne", "nw", "se", "sw"]

/-- Alternative loop of
`r'\b(North|South|East|West|NE|NW|SE|SW)[\s\-]?Facing\b'`;
payload = group 1 as it stands in the subject. -/
def facingTry : List String → List Char → Option String
  | [], _ => none
  | a :: as, l =>
    if litCIAt a.toList l then
      let r := l.drop a.length
      let withSep :=
        match r with
        | c :: r2 =>
          if (c.isWhitespace || c == '-') && litCIAt "facing".toList r2 &&
              noWordNext (r2.drop 6) then
            some (⟨l.take a.length⟩ : String)
          else none
        | [] => none
      match withSep with
      | some s => some s
      | none =>
        if litCIAt "facing".toList r && noWordNext (r.drop 6) then
          some ⟨l.take a.length⟩
        else facingTry as l
    else facingTry as l

def facingAt (prev : Option Char) (l : List Char) : Option String :=
  if boundary prev l.head? then facingTry facingAlts l else none

/-- The facing field: on a match the source stores `match.group(1).upper()`. -/
def facingFromText (t : String) : String :=
  match reFirst facingAt t with
  | some s => pyUpper s
  | none => ""

/-- The bathrooms cascade: `(\d+)\s*Bath`, `(\d+)\s*Bathroom`,
`(\d+)\s*Washroom`; payload = group 1. -/
def bathroomsFromText (t : String) : String :=
  match reFirst (numBeforeAt "bath") t with
  | some d => d
  | none =>
    match reFirst (numBeforeAt "bathroom") t with
    | some d => d
    | none =>
      match reFirst (numBeforeAt "washroom") t with
      | some d => d
      | none => ""

/-- `r'(Bike\s*and\s*Car)\s*Parking'`, payload = group 1. -/
def parkingPat1At (_ : Option Char) (l : List Char) : Option String :=
  if litCIAt "bike".toList l then
    let r1 := l.drop 4
    let w1 := wsTake r1
    if litCIAt "and".toList (r1.drop w1) then
      let r2 := r1.drop (w1 + 3)
      let w2 := wsTake r2
      if litCIAt "car".toList (r2.drop w2) then
        let g := 4 + w1 + 3 + w2 + 3
        let r3 := l.drop g
        let w3 := wsTake r3
        if litCIAt "parking".toList (r3.drop w3) then some ⟨l.take g⟩ else none
      else none
    else none
  else none

/-- `r'(LIT)\s*Parking'` for a literal group, payload = group 1. -/
def parkingLitAt (lit : String) (_ : Option Char) (l : List Char) : Option String :=
  if litCIAt lit.toList l then
    let r := l.drop lit.length
    let w := wsTake r
    if litCIAt "parking".toList (r.drop w) then some ⟨l.take lit.length⟩ else none
  else none

/-- `r'(No\s*Parking)'`, payload = group 1 (= group 0). -/
def parkingPat4At (_ : Option Char) (l : List Char) : Option String :=
  if litCIAt "no".toList l then
    let r := l.drop 2
    let w := wsTake r
    if litCIAt "parking".toList (r.drop w) then some ⟨l.take (2 + w + 7)⟩ else none
  else none

/-- The parking cascade; payload = `match.group(1)`. -/
def parkingFromText (t : String) : String :=
  match reFirst parkingPat1At t with
  | some s => s
  | none =>
    match reFirst (parkingLitAt "car") t with
    | some s => s
    | none =>
      match reFirst (parkingLitAt "bike") t with
      | some s => s
      | none =>
        match reFirst parkingPat4At t with
        | some s => s
        | none =>
          match reFirst (numBeforeAt "parking") t with
          | some s => s
          | none => ""

/-! ## Pattern matchers for `_extract_additional_details_improved` -/

/-- `r'(\d+)(?:st|nd|rd|th)?\s*Floor'`, payload = group 1. -/
def floorPat1At (_ : Option Char) (l : List Char) : Option String :=
  let d := digitsTake l
  if d == 0 then none
  else
    let r1 := l.drop d
    let cont := fun (r : List Char) =>
      let w := wsTake r
      litCIAt "floor".toList (r.drop w)
    let withOrd := ["st", "nd", "rd", "th"].any fun o =>
      litCIAt o.toList r1 && cont (r1.drop 2)
    if withOrd || cont r1 then some ⟨l.take d⟩ else none

/-- `r'Floor\s*[:-]?\s*(\d+)'`, payload = group 1. -/
def floorPat2At (_ : Option Char) (l : List Char) : Option String :=
  if litCIAt "floor".toList l then
    let r1 := l.drop 5
    let w1 := wsTake r1
    let r2 := r1.drop w1
    let sep := match r2.head? with
      | some c => if c == ':' || c == '-' then 1 else 0
      | none => 0
    let r3 := r2.drop sep
    let w2 := wsTake r3
    let d := digitsTake (r3.drop w2)
    if d == 0 then none else some ⟨(r3.drop w2).take d⟩
  else none

/-- `r'(\d+)\s*/\s*\d+\s*Floor'`, payload = group 1. -/
def floorPat3At (_ : Option Char) (l : List Char) : Option String :=
  let d := digitsTake l
  if d == 0 then none
  else
    let r1 := l.drop d
    let w1 := wsTake r1
    match r1.drop w1 with
    | '/' :: r2 =>
      let w2 := wsTake r2
      let d2 := digitsTake (r2.drop w2)
      if d2 == 0 then none
      else
        let r3 := (r2.drop w2).drop d2
        let w3 := wsTake r3
        if litCIAt "floor".toList (r3.drop w3) then some ⟨l.take d⟩ else none
    | _ => none

/-- The floor cascade; a match stores `f"{match.group(1)} Floor"`. -/
def floorFromText (t : String) : String :=
  match reFirst floorPat1At t with
  | some d => d ++ " Floor"
  | none =>
    match reFirst floorPat2At t with
    | some d => d ++ " Floor"
    | none =>
      match reFirst floorPat3At t with
      | some d => d ++ " Floor"
      | none => ""

/-- `r'\b(A\s*B)\b'` for two literals, payload = group 1. -/
def twoWordAt (a b : String) (prev : Option Char) (l : List Char) : Option String :=
  if boundary prev l.head? && litCIAt a.toList l then
    let r := l.drop a.length
    let w := wsTake r
    if litCIAt b.toList (r.drop w) && noWordNext ((r.drop w).drop b.length) then
      some ⟨l.take (a.length + w + b.length)⟩
    else none
  else none

/-- `r'\b(A)\b'` for one literal, payload = group 1. -/
def oneWordAt (a : String) (prev : Option Char) (l : List Char) : Option String :=
  if boundary prev l.head? && litCIAt a.toList l && noWordNext (l.drop a.length) then
    some ⟨l.take a.length⟩
  else none

/-- The furnishing cascade (`Fully Furnished`, `Semi Furnished`, `Unfurnished`,
`Furnished`); a match stores `match.group(1).title()`. -/
def furnishingFromText (t : String) : String :=
  match reFirst (twoWordAt "fully" "furnished") t with
  | some s => pyTitle s
  | none =>
    match reFirst (twoWordAt "semi" "furnished") t with
    | some s => pyTitle s
    | none =>
      match reFirst (oneWordAt "unfurnished") t with
      | some s => pyTitle s
      | none =>
        match reFirst (oneWordAt "furnished") t with
        | some s => pyTitle s
        | none => ""

/-- `r'(\d+)\s*YEARLIT[s]?\s*Old'`, payload = group 1 (patterns 1 and 3 of the
property-age cascade, with `YEARLIT` = `Year` or `Yr`). -/
def agePat13At (yearLit : String) (_ : Option Char) (l : List Char) : Option String :=
  let d := digitsTake l
  if d == 0 then none
  else
    let r1 := l.drop d
    let w1 := wsTake r1
    if litCIAt yearLit.toList (r1.drop w1) then
      let r2 := (r1.drop w1).drop yearLit.length
      let contOld := fun (r : List Char) =>
        let w := wsTake r
        litCIAt "old".toList (r.drop w)
      let withS := match r2.head? with
        | some c => (c == 's' || c == 'S') && contOld (r2.drop 1)
        | none => false
      if withS || contOld r2 then some ⟨l.take d⟩ else none
    else none

/-- `r'Age[:\s]*(\d+)\s*Year[s]?'`, payload = group 1. -/
def agePat2At (_ : Option Char) (l : List Char) : Option String :=
  if litCIAt "age".toList l then
    let r1 := l.drop 3
    let p := (r1.takeWhile (fun c => c == ':' || c.isWhitespace)).length
    let d := digitsTake (r1.drop p)
    if d == 0 then none
    else
      let r2 := (r1.drop p).drop d
      let w := wsTake r2
      if litCIAt "year".toList (r2.drop w) then some ⟨(r1.drop p).take d⟩ else none
  else none

/-- The property-age cascade; a match stores `f"{match.group(1)} years"`. -/
def ageFromText (t : String) : String :=
  match reFirst (agePat13At "year") t with
  | some d => d ++ " years"
  | none =>
    match reFirst agePat2At t with
    | some d => d ++ " years"
    | none =>
      match reFirst (agePat13At "yr") t with
      | some d => d ++ " years"
      | none => ""

/-- `r'(LIT)\b'` (no boundary on the left), payload = group 1. -/
def litBoundAfterAt (lit : String) (_ : Option Char) (l : List Char) : Option String :=
  if litCIAt lit.toList l && noWordNext (l.drop lit.length) then some ⟨l.take lit.length⟩
  else none

/-- `r'Posted\s*by[:\s]*([A-Za-z\s]+)'`, payload = group 1. -/
def postedByAt (_ : Option Char) (l : List Char) : Option String :=
  if litCIAt "posted".toList l then
    let r1 := l.drop 6
    let w := wsTake r1
    if litCIAt "by".toList (r1.drop w) then
      let r2 := (r1.drop w).drop 2
      let p := (r2.takeWhile (fun c => c == ':' || c.isWhitespace)).length
      let g := ((r2.drop p).takeWhile alphaSpace).length
      if g == 0 then none else some ⟨(r2.drop p).take g⟩
    else none
  else none

/-- The broker/owner cascade; a match stores `match.group(1).title()`. -/
def brokerFromText (t : String) : String :=
  match reFirst (litBoundAfterAt "owner") t with
  | some s => pyTitle s
  | none =>
    match reFirst (litBoundAfterAt "broker") t with
    | some s => pyTitle s
    | none =>
      match reFirst (litBoundAfterAt "agent") t with
      | some s => pyTitle s
      | none =>
        match reFirst postedByAt t with
        | some s => pyTitle s
        | none => ""

/-- `re.search(r'\bLIT\b', t, re.IGNORECASE)` as a Boolean. -/
def hasWordCI (w : String) (t : String) : Bool :=
  (reFirst (oneWordAt w) t).isSome

/-- Verification status: `Verified` / `Unverified` word search. -/
def verificationFromText (t : String) : String :=
  if hasWordCI "verified" t then "Verified"
  else if hasWordCI "unverified" t then "Unverified"
  else ""

/-- `r'Possession[:\s]*([A-Za-z]+\s*\d{4})'`, payload = group 1. -/
def possessionPat1At (_ : Option Char) (l : List Char) : Option String :=
  if litCIAt "possession".toList l then
    let r1 := l.drop 10
    let p := (r1.takeWhile (fun c => c == ':' || c.isWhitespace)).length
    let r2 := r1.drop p
    let a := (r2.takeWhile Char.isAlpha).length
    if a == 0 then none
    else
      let r3 := r2.drop a
      let w := wsTake r3
      if 4 ≤ digitsTake (r3.drop w) then some ⟨r2.take (a + w + 4)⟩ else none
  else none

/-- `r'Ready\s*to\s*Move'` / `r'Under\s*Construction'`, payload = group 0. -/
def litSeqAt : List String → Option Char → List Char → Option String
  | lits, _, l =>
    match litSeqLen lits l with
    | some n => some ⟨l.take n⟩
    | none => none
where
  litSeqLen : List String → List Char → Option Nat
    | [], _ => some 0
    | [w], r => if litCIAt w.toList r then some w.length else none
    | w :: ws, r =>
      if litCIAt w.toList r then
        let r1 := r.drop w.length
        let sp := wsTake r1
        match litSeqLen ws (r1.drop sp) with
        | some n => some (w.length + sp + n)
        | none => none
      else none

/-- The possession cascade: group 1 for the first pattern (it has a group),
group 0 for the two literal patterns. -/
def possessionFromText (t : String) : String :=
  match reFirst possessionPat1At t with
  | some s => s
  | none =>
    match reFirst (litSeqAt ["ready", "to", "move"]) t with
    | some s => s
    | none =>
      match reFirst (litSeqAt ["under", "construction"]) t with
      | some s => s
      | none => ""

/-- The fixed amenity vocabulary of `_extract_additional_details_improved`. -/
def amenity_keywords : List String :=
  ["gym", "swimming pool", "pool", "parking", "24x7 security", "security",
   "lift", "elevator", "garden", "playground", "club house", "clubhouse",
   "power backup", "generator", "water supply", "bore well", "rainwater harvesting",
   "children play area", "jogging track", "tennis court", "badminton court",
   "basketball court", "indoor games", "library", "multipurpose hall"]

/-- Amenity extraction: substring scan over the lower-cased card text,
title-cased, deduplicated (`list(set(...))`). -/
def amenitiesFromText (t : String) : List String :=
  ((amenity_keywords.filter (fun a => occurs a (pyLower t))).map pyTitle).dedup

/-! ## Building name and price selector fallback
(`_extract_basic_info_improved`, strategies over DOM selector results) -/

def avoid_texts : List String :=
  ["get owner details", "contact", "view", "call", "whatsapp"]

/-- Acceptance test for a (stripped) title-element text. -/
def titleOk (t : String) : Bool :=
  !t.isEmpty && 3 < t.length && !(pyIsDigit t) &&
    !(avoid_texts.any fun a => occurs a (pyLower t))

/-- Title selector loop: one entry per selector; `none` models the selector
query raising (`except: continue`). -/
def firstTitleText : List (Option (List String)) → Option String
  | [] => none
  | none :: rest => firstTitleText rest
  | some texts :: rest =>
    match (texts.map pyStrip).find? (fun t => titleOk t) with
    | some t => some t
    | none => firstTitleText rest

/-- Acceptance test for a candidate name line of the card text. -/
def nameLineOk (l : String) : Bool :=
  !l.isEmpty && 5 < l.length && l.length < 100 &&
    !((l.toList.take 10).any Char.isDigit) &&
    !(occurs "₹" l) && !(occurs "BHK" l)

/-- Fallback strategy 2: scan the first five lines of the card text. -/
def nameFromLines (cardText : String) : String :=
  match (((pyLines cardText).take 5).map pyStrip).find? (fun l => nameLineOk l) with
  | some l => l
  | none => ""

/-- Building name: title selectors first, else the card-text line scan. -/
def buildingNameOf (titleTexts : List (Option (List String))) (cardText : String) :
    String :=
  match firstTitleText titleTexts with
  | some t => t
  | none => nameFromLines cardText

/-- Acceptance test for a price-selector element text. -/
def priceTextOk (t : String) : Bool :=
  occurs "₹" t || occurs "lacs" (pyLower t) || occurs "crore" (pyLower t)

/-- Price selector fallback loop. -/
def priceFromSelectors : List (Option (List String)) → String
  | [] => ""
  | none :: rest => priceFromSelectors rest
  | some texts :: rest =>
    match (texts.map pyStrip).find? (fun t => priceTextOk t) with
    | some t => t
    | none => priceFromSelectors rest

/-! ## Image extraction (`_extract_image_data_improved`, `_is_property_image`) -/

def exclude_keywords : List String :=
  ["logo", "icon", "avatar", "profile", "banner", "ad", "advertisement"]

def property_keywords : List String :=
  ["property", "house", "apartment", "flat", "home", "real", "estate"]

def property_domains : List String :=
  ["nobroker", "cloudfront", "amazonaws", "images"]

/-- `_is_property_image`: reject falsy/data-URI/short sources and sources with
a blocklisted keyword; require an allow-list keyword or domain token. -/
def is_property_image (src : String) : Bool :=
  if src.isEmpty || pyStartsWith "data:" src || src.length < 10 then false
  else
    let lower := pyLower src
    if exclude_keywords.any (fun k => occurs k lower) then false
    else
      property_keywords.any (fun k => occurs k lower) ||
        property_domains.any (fun d => occurs d lower)

def isQuote (c : Char) : Bool := c == '"' || c == '\''

/-- Backtracking over the greedy `[^"\']+` capture of the background-image
pattern: the largest capture length followed by `["\']?\)`. -/
def urlTryK (l : List Char) : Nat → Option Nat
  | 0 => none
  | k + 1 =>
    match l.drop (k + 1) with
    | ')' :: _ => some (k + 1)
    | c :: ')' :: _ => if isQuote c then some (k + 1) else urlTryK l k
    | _ => urlTryK l k

/-- `r'url\(["\']?([^"\']+)["\']?\)'` (case-sensitive), payload = group 1. -/
def urlPatAt (_ : Option Char) (l : List Char) : Option String :=
  if litAt "url(".toList l then
    let r := l.drop 4
    let (qn, r1) :=
      match r with
      | c :: cs => if isQuote c then (1, cs) else (0, r)
      | [] => (0, r)
    let _ := qn
    let run := (r1.takeWhile (fun c => !isQuote c)).length
    match urlTryK r1 run with
    | some k => some ⟨r1.take k⟩
    | none => none
  else none

/-- Image sources from `img` elements: the resolved
`src or data-src or data-lazy` attribute (`none` models the per-image
`try/except: continue`), kept when `_is_property_image` accepts it. -/
def imgTagUrls (srcs : List (Option String)) : List String :=
  (srcs.filterMap id).filter is_property_image

/-- Image URLs from `background-image` styles (`none` models a raising
element; an absent `url(...)` match skips the element). -/
def bgStyleUrls (styles : List (Option String)) : List String :=
  styles.filterMap fun o =>
    match o with
    | none => none
    | some st =>
      match reFirst urlPatAt st with
      | none => none
      | some u => if is_property_image u then some u else none

/-- `image_urls = list(set(valid_images))`: deduplicated collected sources. -/
def imageUrlsOf (srcs : List (Option String)) (styles : List (Option String)) :
    List String :=
  (imgTagUrls srcs ++ bgStyleUrls styles).dedup

/-- `r'(\d+)/\d+'`, payload = group 1. -/
def countSlashAt (_ : Option Char) (l : List Char) : Option String :=
  let d := digitsTake l
  if d == 0 then none
  else
    match l.drop d with
    | '/' :: r => if 1 ≤ digitsTake r then some ⟨l.take d⟩ else none
    | _ => none

/-- `r'View\s*(?:all\s*)?(\d+)\s*photos?'`, payload = group 1. -/
def viewPhotosAt (_ : Option Char) (l : List Char) : Option String :=
  if litCIAt "view".toList l then
    let r1 := l.drop 4
    let w1 := wsTake r1
    let r2 := r1.drop w1
    let r3 := if litCIAt "all".toList r2 then
        (r2.drop 3).drop (wsTake (r2.drop 3))
      else r2
    let d := digitsTake r3
    if d == 0 then none
    else
      let r4 := r3.drop d
      let w2 := wsTake r4
      if litCIAt "photo".toList (r4.drop w2) then some ⟨r3.take d⟩ else none
  else none

/-- The photo-count indicator cascade over the card text: the first matching
pattern's `int(match.group(1))`. -/
def imageCountIndicator (t : String) : Option Nat :=
  match reFirst (numBeforeAt "photo") t with
  | some d => some (digitsToNat d)
  | none =>
    match reFirst (numBeforeAt "image") t with
    | some d => some (digitsToNat d)
    | none =>
      match reFirst countSlashAt t with
      | some d => some (digitsToNat d)
      | none =>
        match reFirst viewPhotosAt t with
        | some d => some (digitsToNat d)
        | none => none

/-- `image_count`: the URL count, raised to a larger textual indicator when
the card-text re-read succeeded (`none` models that read raising after the
URL list was already stored). -/
def imageCountOf (urls : List String) (imgText : Option String) : Nat :=
  match imgText with
  | none => urls.length
  | some t =>
    match imageCountIndicator t with
    | some v => if urls.length < v then v else urls.length
    | none => urls.length

/-! ## Link extraction (`_extract_links_improved`) -/

/-- Observations of one clickable element (attribute reads resolve `None` to
`""`). -/
structure LinkObs where
  href : String := ""
  dataHref : String := ""
  onclick : String := ""
  text : String := ""
  titleAttr : String := ""
  ariaLabel : String := ""
  target : String := ""
deriving DecidableEq, Repr

/-- One collected link. -/
structure LinkData where
  url : String
  text : String
  opens_new_tab : Bool
deriving DecidableEq, Repr

/-- Per-element link extraction: `href or data-href or onclick`, label
fallback chain, `href != "#"` filter. -/
def extractLink (o : LinkObs) : Option LinkData :=
  let href :=
    if !o.href.isEmpty then o.href
    else if !o.dataHref.isEmpty then o.dataHref
    else o.onclick
  let text :=
    if !(pyStrip o.text).isEmpty then pyStrip o.text
    else if !o.titleAttr.isEmpty then o.titleAttr
    else if !o.ariaLabel.isEmpty then o.ariaLabel
    else "Link"
  if !href.isEmpty && href != "#" && 0 < (pyStrip text).length then
    some ⟨href, text, o.target == "_blank"⟩
  else none

/-- All collected links (`none` entries model the per-element
`try/except: continue`). -/
def linksOf (elems : List (Option LinkObs)) : List LinkData :=
  elems.filterMap fun o =>
    match o with
    | none => none
    | some e => extractLink e

/-! ## Nearby places (`_extract_nearby_places_improved`) -/

/-- Alternative loop of a `(?:S1|S2|...)` suffix followed by `\b`. -/
def npAltAt : List String → List Char → Option Nat
  | [], _ => none
  | s :: ss, r =>
    if litCIAt s.toList r && noWordNext (r.drop s.length) then some s.length
    else npAltAt ss r

/-- Backtracking over the greedy `[A-Za-z\s]+` group of
`([A-Za-z\s]+(?:S1|S2|...))\b`: largest class prefix followed by a suffix
alternative and its boundary. -/
def npTryK (suffixes : List String) (l : List Char) : Nat → Option (Nat × String)
  | 0 => none
  | k + 1 =>
    match npAltAt suffixes (l.drop (k + 1)) with
    | some slen => some (k + 1 + slen, ⟨l.take (k + 1 + slen)⟩)
    | none => npTryK suffixes l k

/-- `r'([A-Za-z\s]+(?:S1|S2|...))\b'`, payload = (consumed, group 1). -/
def npClassAt (suffixes : List String) (_ : Option Char) (l : List Char) :
    Option (Nat × String) :=
  npTryK suffixes l ((l.takeWhile alphaSpace).length)

/-- `r'\b(JSA HELIPAD|Union Bank|Uppal|Badshahpur)\b'`. -/
def np7At (prev : Option Char) (l : List Char) : Option (Nat × String) :=
  if boundary prev l.head? then
    match npAltAt ["JSA HELIPAD", "Union Bank", "Uppal", "Badshahpur"] l with
    | some n => some (n, ⟨l.take n⟩)
    | none => none
  else none

/-- `r'\b([A-Za-z]+\s+(?:Club|Gym|Hospital|School|Mall|Park))\b'`. -/
def np8At (prev : Option Char) (l : List Char) : Option (Nat × String) :=
  if boundary prev l.head? then
    let a := (l.takeWhile Char.isAlpha).length
    if a == 0 then none
    else
      let r1 := l.drop a
      let w := wsTake r1
      if w == 0 then none
      else
        match npAltAt ["club", "gym", "hospital", "school", "mall", "park"] (r1.drop w) with
        | some slen => some (a + w + slen, ⟨l.take (a + w + slen)⟩)
        | none => none
  else none

/-- The eight category place patterns, concatenated in source order. -/
def placeMatches (t : String) : List String :=
  reAll (npClassAt ["hospital", "medical", "clinic"]) t ++
  reAll (npClassAt ["school", "college", "university", "institute"]) t ++
  reAll (npClassAt ["mall", "market", "shopping", "store"]) t ++
  reAll (npClassAt ["station", "metro", "airport", "bus"]) t ++
  reAll (npClassAt ["park", "garden", "ground"]) t ++
  reAll (npClassAt ["temple", "church", "mosque", "gurudwara"]) t ++
  reAll np7At t ++
  reAll np8At t

/-- Regex alternation over literals, each continued by `cont`
(backtracks into the continuation as the engine does). -/
def altsCont (alts : List String) (cont : List Char → Option (Nat × String))
    (r : List Char) : Option (Nat × String) :=
  match alts with
  | [] => none
  | a :: as =>
    if litCIAt a.toList r then
      match cont (r.drop a.length) with
      | some (n, g) => some (a.length + n, g)
      | none => altsCont as cont r
    else altsCont as cont r

/-- `\s+([A-Za-z\s]+)` : a greedy whitespace run backtracking into a greedy
class run, payload = (consumed, group). -/
def d1Tail (r : List Char) : Option (Nat × String) :=
  match r with
  | [] => none
  | c :: _ =>
    if !c.isWhitespace then none
    else
      let total := (r.takeWhile alphaSpace).length
      let w := wsTake r
      if w < total then some (total, ⟨(r.drop w).take (total - w)⟩)
      else if 2 ≤ w then some (w, ⟨(r.drop (w - 1)).take 1⟩)
      else none

/-- `r'(\d+)\s*(?:min|km|m)\s*(?:to|from|away)\s+([A-Za-z\s]+)'`,
payload = (consumed, group 2). -/
def d1At (_ : Option Char) (l : List Char) : Option (Nat × String) :=
  let d := digitsTake l
  if d == 0 then none
  else
    let r1 := l.drop d
    let w1 := wsTake r1
    match altsCont ["min", "km", "m"]
        (fun r3 =>
          let w2 := wsTake r3
          match altsCont ["to", "from", "away"] d1Tail (r3.drop w2) with
          | some (n, g) => some (w2 + n, g)
          | none => none)
        (r1.drop w1) with
    | some (n, g) => some (d + w1 + n, g)
    | none => none

/-- First alternative of `(?:min|km|m)` at the head, returning its length. -/
def altFirstLen : List String → List Char → Option Nat
  | [], _ => none
  | a :: as, l => if litCIAt a.toList l then some a.length else altFirstLen as l

/-- `r'([A-Za-z\s]+)\s*-\s*(\d+)\s*(?:min|km|m)'`, payload = (consumed,
group 2) — the source reads `match[1]`, which is the digit group. -/
def d2At (_ : Option Char) (l : List Char) : Option (Nat × String) :=
  let run := (l.takeWhile alphaSpace).length
  if run == 0 then none
  else
    match l.drop run with
    | '-' :: r1 =>
      let w1 := wsTake r1
      let d := digitsTake (r1.drop w1)
      if d == 0 then none
      else
        let r2 := (r1.drop w1).drop d
        let w2 := wsTake r2
        match altFirstLen ["min", "km", "m"] (r2.drop w2) with
        | some u => some (run + 1 + w1 + d + w2 + u, ⟨(r1.drop w1).take d⟩)
        | none => none
    | _ => none

/-- The two distance patterns, in source order. -/
def distMatches (t : String) : List String :=
  reAll d1At t ++ reAll d2At t

def nearby_stop_words : List String := ["The", "And", "For", "With"]

/-- The normalization/filter pipeline over the raw matches: category matches
are stripped, title-cased, length- and stop-word-filtered; distance matches
are stripped, title-cased and only length-filtered; the union is a set,
capped at 15. -/
def nearbyFromMatches (place dist : List String) : List String :=
  let cleanedPlace := (place.map fun m => pyTitle (pyStrip m)).filter
    fun c => 3 < c.length && !(nearby_stop_words.contains c)
  let cleanedDist := (dist.map fun m => pyTitle (pyStrip m)).filter
    fun c => 3 < c.length
  ((cleanedPlace ++ cleanedDist).dedup).take 15

/-- `nearby_text`: the card text extended by the text of each
nearby-labelled element's grandparent container. -/
def nearbyText (cardText : String) (parentTexts : List String) : String :=
  parentTexts.foldl (fun acc t => acc ++ " " ++ t) cardText

/-- `_extract_nearby_places_improved`; `fail` models the initial
`find_elements` call raising, which skips the whole method. -/
def nearbyPlacesImproved (fail : Bool) (cardText : String)
    (parentTexts : List String) : List String :=
  if fail then []
  else
    let nt := nearbyText cardText parentTexts
    nearbyFromMatches (placeMatches nt) (distMatches nt)

/-! ## The listing record and the card extractor
(`ListingData`, `extract_comprehensive_card_data`, `_validate_listing_data`) -/

/-- The `ListingData` dataclass (list fields default to empty as in
`__post_init__`). -/
structure ListingData where
  building_name : String := ""
  price : String := ""
  emi : String := ""
  buildup_area : String := ""
  facing : String := ""
  apartment_type : String := ""
  bathrooms : String := ""
  parking : String := ""
  floorInfo : String := ""
  furnishing : String := ""
  age : String := ""
  nearby_places : List String := []
  image_count : Nat := 0
  image_urls : List String := []
  links : List LinkData := []
  broker_info : String := ""
  verification_status : String := ""
  possession_date : String := ""
  additional_amenities : List String := []
deriving DecidableEq, Repr

/-- Everything one card contributes to extraction: the captured card text and
the DOM reads of the sub-extractors.  Each `Option` wraps a read the source
guards with its own `try/except`; a `Bool` flag models the guarded query that
starts a sub-extractor raising (which skips that sub-extractor only). -/
structure CardInput where
  cardText : String := ""
  titleTexts : List (Option (List String)) := []
  priceSelTexts : List (Option (List String)) := []
  imgFail : Bool := false
  imgSrcs : List (Option String) := []
  bgStyles : List (Option String) := []
  imgText : Option String := some ""
  linksFail : Bool := false
  linkElems : List (Option LinkObs) := []
  nearbyFail : Bool := false
  nearbyParentTexts : List String := []
deriving DecidableEq, Repr

/-- The candidate record assembled by `extract_comprehensive_card_data`
before validation.  Each field is computed exactly as by the corresponding
sub-extractor; the sub-extractors only write disjoint fields and never read
one another's results, so the sequential mutation of the source is a
structure literal here. -/
def extractCandidate (i : CardInput) : ListingData :=
  { building_name := buildingNameOf i.titleTexts i.cardText
    price :=
      let p := priceFromText i.cardText
      if !p.isEmpty then p else priceFromSelectors i.priceSelTexts
    emi := emiFromText i.cardText
    apartment_type := apartmentTypeFromText i.cardText
    buildup_area := buildupAreaFromText i.cardText
    facing := facingFromText i.cardText
    bathrooms := bathroomsFromText i.cardText
    parking := parkingFromText i.cardText
    floorInfo := floorFromText i.cardText
    furnishing := furnishingFromText i.cardText
    age := ageFromText i.cardText
    broker_info := brokerFromText i.cardText
    verification_status := verificationFromText i.cardText
    possession_date := possessionFromText i.cardText
    additional_amenities := amenitiesFromText i.cardText
    image_urls := if i.imgFail then [] else imageUrlsOf i.imgSrcs i.bgStyles
    image_count :=
      if i.imgFail then 0
      else imageCountOf (imageUrlsOf i.imgSrcs i.bgStyles) i.imgText
    links := if i.linksFail then [] else linksOf i.linkElems
    nearby_places :=
      nearbyPlacesImproved i.nearbyFail i.cardText i.nearbyParentTexts }

/-- `_validate_listing_data`. -/
def validate_listing_data (ld : ListingData) : Bool :=
  let has_basic_info :=
    !ld.building_name.isEmpty || !ld.price.isEmpty || !ld.apartment_type.isEmpty
  if !has_basic_info then false
  else
    let has_property_info :=
      !ld.apartment_type.isEmpty || !ld.buildup_area.isEmpty ||
        !ld.bathrooms.isEmpty || !ld.facing.isEmpty || !ld.parking.isEmpty
    has_property_info || 0 < ld.nearby_places.length || 0 < ld.image_count

/-- `extract_comprehensive_card_data`: extraction then validation; a
validation failure (and only it, once the card text has been captured)
returns `None`. -/
def extract_comprehensive_card_data (i : CardInput) : Option ListingData :=
  let ld := extractCandidate i
  if validate_listing_data ld then some ld else none

/-! ## The card locator
(`find_property_cards_improved`, `_is_valid_property_card`,
`_get_element_id`, `_find_cards_by_xpath`, `_find_cards_by_text_patterns`,
`_find_card_container`, `_looks_like_card_container`) -/

/-- Observations of one DOM element, as read by the locator.  `handle`
identifies the live element handle and is never read by the scraper logic;
the remaining fields are exactly the attribute/geometry/text reads the
source performs.  The three descendant counters are the result sizes of the
corresponding `find_elements` probes. -/
structure Element where
  handle : Nat := 0
  displayed : Bool := true
  width : Nat := 0
  height : Nat := 0
  x : Int := 0
  y : Int := 0
  text : String := ""
  attrId : String := ""
  attrClass : String := ""
  attrTestid : String := ""
  tag : String := ""
  clickableCount : Nat := 0
  priceDescCount : Nat := 0
  bhkDescCount : Nat := 0
  linkDescCount : Nat := 0
deriving DecidableEq, Repr

/-- The property-indicator vocabulary of `_is_valid_property_card`. -/
def property_indicators : List String :=
  ["₹", "lacs", "crore", "bhk", "sqft", "bathroom", "parking",
   "facing", "furnished", "floor", "possession", "emi"]

/-- Number of vocabulary tokens occurring in the lower-cased element text. -/
def indicatorCount (t : String) : Nat :=
  (property_indicators.filter fun ind => occurs ind (pyLower t)).length

/-- `_is_valid_property_card`. -/
def is_valid_property_card (e : Element) : Bool :=
  if !e.displayed then false
  else if e.height < 100 || e.width < 200 then false
  else if indicatorCount e.text < 2 then false
  else 0 < e.clickableCount

/-- Deterministic stand-in for CPython's per-process `hash` of the leading
text (any fixed deterministic function models one run, which is all
`_get_element_id` relies on). -/
def textHash (s : String) : Nat :=
  s.toList.foldl (fun h c => (h * 31 + c.toNat) % 1000000007) 7

/-- `_get_element_id`: the composite of id/class/test-id when id or test-id
is present, else position, size and a hash of the first 100 characters of
the text. -/
def get_element_id (e : Element) : String :=
  if e.attrId.isEmpty && e.attrTestid.isEmpty then
    toString e.x ++ "_" ++ toString e.y ++ "_" ++ toString e.width ++ "_" ++
      toString e.height ++ "_" ++ toString (textHash ⟨e.text.toList.take 100⟩)
  else
    e.attrId ++ "_" ++ e.attrClass ++ "_" ++ e.attrTestid

/-- The accumulation loop shared by all three strategies: map each hit to a
candidate card (the identity for strategy 1, the container walk for
strategies 2 and 3), keep it when valid and its fingerprint is unseen,
recording the fingerprint. -/
def dedupFold {β : Type} (f : β → Element) : List β → List String → List Element →
    List Element × List String
  | [], seen, acc => (acc, seen)
  | b :: rest, seen, acc =>
    let c := f b
    if is_valid_property_card c && !(seen.contains (get_element_id c)) then
      dedupFold f rest (get_element_id c :: seen) (acc ++ [c])
    else dedupFold f rest seen acc

/-- The inner element loop of selector strategy 1: keep valid elements whose
fingerprint is unseen, recording their fingerprints. -/
def addValidCards (hits : List Element) (seen : List String) (acc : List Element) :
    List Element × List String :=
  dedupFold (fun e => e) hits seen acc

/-- The pattern loop shared by strategies 1 and 2: one entry per
selector/XPath pattern (`none` models the query raising,
`except: continue`); stop at the first pattern leaving the card list
non-empty. -/
def optLoop {β : Type} (f : β → Element) : List (Option (List β)) → List String →
    List Element × List String
  | [], seen => ([], seen)
  | none :: rest, seen => optLoop f rest seen
  | some hits :: rest, seen =>
    let r := dedupFold f hits seen []
    if r.1.isEmpty then optLoop f rest r.2 else r

/-- The selector loop of strategy 1. -/
def selectorLoop (selHits : List (Option (List Element))) (seen : List String) :
    List Element × List String :=
  optLoop (fun e => e) selHits seen

/-- One XPath hit: the matched element together with its ancestor chain
(nearest parent first; a truncated chain models a failing parent lookup). -/
structure XHit where
  elem : Element
  ancestors : List Element := []
deriving DecidableEq, Repr

/-- `_looks_like_card_container`. -/
def looks_like_card_container (e : Element) : Bool :=
  let cls := pyLower e.attrClass
  if ["card", "listing", "property", "item", "result", "tile"].any
      (fun k => occurs k cls) then true
  else if pyLower e.tag == "article" || pyLower e.tag == "section" then true
  else if 200 ≤ e.height && 300 ≤ e.width then
    0 < e.priceDescCount && (0 < e.bhkDescCount || 0 < e.linkDescCount)
  else false

/-- `_find_card_container`: the first of the element and its ancestors
(bounded depth) that looks like a card container, else the element itself. -/
def find_card_container (maxLevels : Nat) (h : XHit) : Element :=
  match ((h.elem :: h.ancestors).take maxLevels).find?
      (fun e => looks_like_card_container e) with
  | some e => e
  | none => h.elem

/-- The per-hit loop shared by strategies 2 and 3: container walk, validity,
fingerprint dedup. -/
def xhitLoop (maxLevels : Nat) (hits : List XHit) (seen : List String)
    (acc : List Element) : List Element × List String :=
  dedupFold (find_card_container maxLevels) hits seen acc

/-- `_find_cards_by_xpath`: one entry per XPath pattern, ancestor depth 5,
stop at the first pattern yielding cards. -/
def xpathLoop (xHits : List (Option (List XHit))) (seen : List String) :
    List Element × List String :=
  optLoop (find_card_container 5) xHits seen

/-- `_find_cards_by_text_patterns`: a single price-text query, ancestor
depth 8 (`none` models the query raising: the handler returns no cards). -/
def textPatternCards (hits : Option (List XHit)) (seen : List String) :
    List Element × List String :=
  match hits with
  | none => ([], seen)
  | some hs => xhitLoop 8 hs seen []

/-- One rendered-page state, as the three strategies observe it. -/
structure PageSnapshot where
  selectorHits : List (Option (List Element)) := []
  xpathHits : List (Option (List XHit)) := []
  priceTextHits : Option (List XHit) := some []
deriving Repr

/-- `find_property_cards_improved` with strategies 2 and 3 abstracted as the
state transformers they are: strategy 1, then — only on an empty result —
strategy 2, then strategy 3. -/
def findCardsWith (s2 s3 : List String → List Element × List String)
    (selectorHits : List (Option (List Element))) (seen : List String) :
    List Element × List String :=
  let r1 := selectorLoop selectorHits seen
  if !r1.1.isEmpty then r1
  else
    let r2 := s2 r1.2
    if !r2.1.isEmpty then r2
    else s3 r2.2

/-- `find_property_cards_improved` on a page snapshot. -/
def find_property_cards_improved (p : PageSnapshot) (seen : List String) :
    List Element × List String :=
  findCardsWith (fun s => xpathLoop p.xpathHits s)
    (fun s => textPatternCards p.priceTextHits s) p.selectorHits seen

/-- A whole run of locator passes with the fingerprint set threaded through
(`self.processed_cards` lives for the run). -/
def locatorRun : List PageSnapshot → List String → List Element × List String
  | [], seen => ([], seen)
  | p :: ps, seen =>
    let r := find_property_cards_improved p seen
    let rest := locatorRun ps r.2
    (r.1 ++ rest.1, rest.2)

/-- Modelled from the spec: the card-validity predicate as claim C5 words
it — visible, bounding box at least 200 px wide and 100 px high, at least 2
tokens of a vocabulary that also lists `acres`, and a clickable
descendant. -/
def spec_property_indicators : List String :=
  ["₹", "lacs", "crore", "bhk", "sqft", "bathroom", "parking",
   "facing", "furnished", "floor", "possession", "emi", "acres"]

/-- Modelled from the spec (claim C5's reading of the predicate). -/
def card_valid_spec (e : Element) : Bool :=
  e.displayed && 200 ≤ e.width && 100 ≤ e.height &&
    2 ≤ (spec_property_indicators.filter
      fun ind => occurs ind (pyLower e.text)).length &&
    0 < e.clickableCount

/-! ## Output rows (`_listing_data_to_dict`, `_clean_building_name_and_location`) -/

/-- `r'(Sector\s*\d+)'`, payload = group 1. -/
def sectorAt (_ : Option Char) (l : List Char) : Option String :=
  if litCIAt "sector".toList l then
    let r := l.drop 6
    let w := wsTake r
    let d := digitsTake (r.drop w)
    if d == 0 then none else some ⟨l.take (6 + w + d)⟩
  else none

/-- `re.sub(r'^\d+\s*(RK|BHK)\s*', '', s)` (anchored, so at most one
removal at the start). -/
def stripAptTypeHead (s : String) : String :=
  let l := s.toList
  let d := digitsTake l
  if d == 0 then s
  else
    let r1 := l.drop d
    let w1 := wsTake r1
    match altFirstLen ["rk", "bhk"] (r1.drop w1) with
    | some u =>
      let r2 := (r1.drop w1).drop u
      ⟨r2.drop (wsTake r2)⟩
    | none => s

/-- One match of `r'\s*For Sale.*'` at the head: leading whitespace, the
literal, then the rest of the line (`.` stops at a newline). -/
def forSaleHead (l : List Char) : Option Nat :=
  let w := wsTake l
  if litCIAt "for sale".toList (l.drop w) then
    let rest := (l.drop w).drop 8
    some (w + 8 + (rest.takeWhile fun c => c != '\n').length)
  else none

/-- `re.sub(r'\s*For Sale.*', '', s)`: remove every (leftmost,
non-overlapping) match. -/
def removeForSale : Nat → List Char → List Char
  | 0, l => l
  | _ + 1, [] => []
  | fuel + 1, c :: cs =>
    match forSaleHead (c :: cs) with
    | some n => removeForSale fuel ((c :: cs).drop n)
    | none => c :: removeForSale fuel cs

/-- `_clean_building_name_and_location`. -/
def clean_building_name_and_location (raw : String) : String × String :=
  if raw.isEmpty then ("", "")
  else
    let location :=
      match reFirst sectorAt raw with
      | some s => pyTitle s
      | none => ""
    let cleaned := stripAptTypeHead raw
    let cleaned2 : String := ⟨removeForSale (cleaned.toList.length + 1) cleaned.toList⟩
    (pyStrip cleaned2, location)

/-- The output dictionary of `_listing_data_to_dict`.  The spreadsheet
convenience columns that merely restate the list fields
(`nearby_place_1..5`, `link_1..3_*`) and the wall-clock/run metadata
(`extraction_timestamp`, `run_id`) are not modelled. -/
structure OutRow where
  listing_index : Nat
  building_name : String
  price : String
  emi : String
  buildup_area : String
  facing : String
  apartment_type : String
  bathrooms : String
  parking : String
  floorInfo : String
  furnishing : String
  property_age : String
  broker_info : String
  verification_status : String
  possession_date : String
  image_count : Nat
  image_urls : String
  nearby_places_count : Nat
  nearby_places : String
  location : String
  links_count : Nat
  links_summary : String
  amenities_count : Nat
  amenities : String
deriving DecidableEq, Repr

/-- `_listing_data_to_dict`. -/
def listing_data_to_dict (ld : ListingData) (index : Nat) : OutRow :=
  let cl := clean_building_name_and_location ld.building_name
  { listing_index := index
    building_name := if !cl.1.isEmpty then cl.1 else ld.building_name
    price := ld.price
    emi := ld.emi
    buildup_area := ld.buildup_area
    facing := ld.facing
    apartment_type := ld.apartment_type
    bathrooms := ld.bathrooms
    parking := ld.parking
    floorInfo := ld.floorInfo
    furnishing := ld.furnishing
    property_age := ld.age
    broker_info := ld.broker_info
    verification_status := ld.verification_status
    possession_date := ld.possession_date
    image_count := ld.image_count
    image_urls := joinSep ", " ld.image_urls
    nearby_places_count := ld.nearby_places.length
    nearby_places := joinSep ", " ld.nearby_places
    location := cl.2
    links_count := ld.links.length
    links_summary := joinSep ", "
      ((ld.links.take 3).map fun lk => (⟨lk.text.toList.take 20⟩ : String))
    amenities_count := ld.additional_amenities.length
    amenities := joinSep ", " ld.additional_amenities }

/-! ## The crawl driver (`extract_all_listings`) -/

/-- Why the crawl loop stopped.  The source has no explicit state labels;
these name which conjunct of the `while` guard (or which inner `break`)
ended the loop, matching the spec's `DoneTarget` / `DoneBudget` /
`DoneExhausted`. -/
inductive StopReason
  | target
  | budget
  | exhausted
deriving DecidableEq, Repr

structure DriverConfig where
  maxListings : Nat
  maxScrolls : Nat
deriving DecidableEq, Repr

/-- The inner card loop of one pass: break once the accepted count reaches
the target; keep only records whose apartment type normalizes to
`1 BHK`/`1 RK`; a failed extraction or a filtered record is skipped. -/
def processCards (cfg : DriverConfig) : List CardInput → List OutRow → List OutRow
  | [], rows => rows
  | c :: cs, rows =>
    if cfg.maxListings ≤ rows.length then rows
    else
      match extract_comprehensive_card_data c with
      | some ld =>
        let apt := pyUpper (pyStrip ld.apartment_type)
        if apt == "1 BHK" || apt == "1 RK" then
          processCards cfg cs (rows ++ [listing_data_to_dict ld (rows.length + 1)])
        else processCards cfg cs rows
      | none => processCards cfg cs rows

/-- The `while` loop of `extract_all_listings`.  `pages n` is what the
locator returns on pass `n` (the pass index equals `scroll_count` at loop
entry, which increments exactly once per iteration).  `failAt = some n`
models an unexpected exception raised during pass `n` at a point not covered
by the per-card `try/except`; it propagates to the function's outer handler.
The fuel is `maxScrolls - scroll`, so the `fuel = 0` case is unreachable
from `extract_all_listings_run`.  The result carries the accumulated rows,
the number of locator passes executed, and the stop reason. -/
def crawlLoop (cfg : DriverConfig) (pages : Nat → List CardInput)
    (failAt : Option Nat) :
    Nat → Nat → Nat → Nat → List OutRow →
    Except Unit (List OutRow × Nat × StopReason)
  | 0, scroll, noCards, passes, rows =>
    if cfg.maxListings ≤ rows.length then .ok (rows, passes, .target)
    else if cfg.maxScrolls ≤ scroll then .ok (rows, passes, .budget)
    else if 3 ≤ noCards then .ok (rows, passes, .exhausted)
    else .ok (rows, passes, .budget)
  | fuel + 1, scroll, noCards, passes, rows =>
    if cfg.maxListings ≤ rows.length then .ok (rows, passes, .target)
    else if cfg.maxScrolls ≤ scroll then .ok (rows, passes, .budget)
    else if 3 ≤ noCards then .ok (rows, passes, .exhausted)
    else if failAt == some scroll then .error ()
    else
      let cards := pages scroll
      if cards.isEmpty then
        if 3 ≤ noCards + 1 then .ok (rows, passes + 1, .exhausted)
        else crawlLoop cfg pages failAt fuel (scroll + 1) (noCards + 1)
          (passes + 1) rows
      else
        crawlLoop cfg pages failAt fuel (scroll + 1) 0 (passes + 1)
          (processCards cfg cards rows)

/-- `extract_all_listings` up to its outer `try`: the loop from the initial
state. -/
def extract_all_listings_run (cfg : DriverConfig) (pages : Nat → List CardInput)
    (failAt : Option Nat) : Except Unit (List OutRow × Nat × StopReason) :=
  crawlLoop cfg pages failAt cfg.maxScrolls 0 0 0 []

/-- `extract_all_listings`: the outer `except Exception` handler returns an
empty list. -/
def extract_all_listings (cfg : DriverConfig) (pages : Nat → List CardInput)
    (failAt : Option Nat) : List OutRow :=
  match extract_all_listings_run cfg pages failAt with
  | .ok (rows, _, _) => rows
  | .error _ => []

/-- Does a card survive extraction, validation and the driver's
apartment-type filter?  (Used to phrase the driver theorems.) -/
def acceptedCard (c : CardInput) : Bool :=
  match extract_comprehensive_card_data c with
  | some ld =>
    let apt := pyUpper (pyStrip ld.apartment_type)
    apt == "1 BHK" || apt == "1 RK"
  | none => false

/-! ## Helper lemmas: characters and case mapping -/

theorem uint32_ofNat_le_iff {n : UInt32} {m : Nat} (h : m < UInt32.size) :
    (UInt32.ofNat m ≤ n) ↔ m ≤ n.toNat := by
  simp [UInt32.le_def, BitVec.le_def, UInt32.toNat, UInt32.toBitVec_eq_of_lt h]

theorem uint32_le_ofNat_iff {n : UInt32} {m : Nat} (h : m < UInt32.size) :
    (n ≤ UInt32.ofNat m) ↔ n.toNat ≤ m := by
  simp [UInt32.le_def, BitVec.le_def, UInt32.toNat, UInt32.toBitVec_eq_of_lt h]

theorem char_isUpper_iff (c : Char) :
    c.isUpper = true ↔ 65 ≤ Char.toNat c ∧ Char.toNat c ≤ 90 := by
  simp only [Char.isUpper, Bool.and_eq_true, decide_eq_true_eq]
  constructor
  · rintro ⟨h1, h2⟩
    exact ⟨(uint32_ofNat_le_iff (by decide)).mp h1, (uint32_le_ofNat_iff (by decide)).mp h2⟩
  · rintro ⟨h1, h2⟩
    exact ⟨(uint32_ofNat_le_iff (by decide)).mpr h1, (uint32_le_ofNat_iff (by decide)).mpr h2⟩

theorem char_isLower_iff (c : Char) :
    c.isLower = true ↔ 97 ≤ Char.toNat c ∧ Char.toNat c ≤ 122 := by
  simp only [Char.isLower, Bool.and_eq_true, decide_eq_true_eq]
  constructor
  · rintro ⟨h1, h2⟩
    exact ⟨(uint32_ofNat_le_iff (by decide)).mp h1, (uint32_le_ofNat_iff (by decide)).mp h2⟩
  · rintro ⟨h1, h2⟩
    exact ⟨(uint32_ofNat_le_iff (by decide)).mpr h1, (uint32_le_ofNat_iff (by decide)).mpr h2⟩

theorem char_isAlpha_iff (c : Char) :
    c.isAlpha = true ↔
      (65 ≤ Char.toNat c ∧ Char.toNat c ≤ 90) ∨
        (97 ≤ Char.toNat c ∧ Char.toNat c ≤ 122) := by
  simp only [Char.isAlpha, Bool.or_eq_true, char_isUpper_iff, char_isLower_iff]

theorem char_ofNat_toNat_lt {n : Nat} (h : n < 55296) : (Char.ofNat n).toNat = n := by
  rw [Char.ofNat, dif_pos (Or.inl h)]
  simp [Char.ofNatAux, Char.toNat, UInt32.toNat]

theorem char_toNat_le_of_isDigit (c : Char) (h : c.isDigit = true) :
    Char.toNat c ≤ 57 := by
  simp [Char.isDigit] at h
  exact UInt32.toNat_le_of_le (by decide) h.2

theorem le_char_toNat_of_isDigit (c : Char) (h : c.isDigit = true) :
    48 ≤ Char.toNat c := by
  simp [Char.isDigit] at h
  exact UInt32.le_toNat_of_le (by decide) h.1

theorem isWhitespace_eq_false_of_isDigit (c : Char) (h : c.isDigit = true) :
    c.isWhitespace = false := by
  have h1 := le_char_toNat_of_isDigit c h
  have hs : c ≠ ' ' := by intro hc; rw [hc] at h1; exact absurd h1 (by decide)
  have ht : c ≠ '\t' := by intro hc; rw [hc] at h1; exact absurd h1 (by decide)
  have hr : c ≠ '\r' := by intro hc; rw [hc] at h1; exact absurd h1 (by decide)
  have hn : c ≠ '\n' := by intro hc; rw [hc] at h1; exact absurd h1 (by decide)
  simp [Char.isWhitespace, hs, ht, hr, hn]

theorem toUpper_eq_self_of_isDigit (c : Char) (h : c.isDigit = true) :
    c.toUpper = c := by
  have h2 := char_toNat_le_of_isDigit c h
  unfold Char.toUpper
  simp only []
  rw [if_neg (by omega)]

theorem isAlpha_toUpper (c : Char) : (Char.toUpper c).isAlpha = c.isAlpha := by
  unfold Char.toUpper
  simp only []
  by_cases hc : Char.toNat c ≥ 97 ∧ Char.toNat c ≤ 122
  · rw [if_pos hc]
    have hv : (Char.ofNat (Char.toNat c - 32)).toNat = Char.toNat c - 32 :=
      char_ofNat_toNat_lt (by omega)
    have h1 : (Char.ofNat (Char.toNat c - 32)).isAlpha = true := by
      rw [char_isAlpha_iff, hv]; omega
    have h2 : c.isAlpha = true := by
      rw [char_isAlpha_iff]; omega
    rw [h1, h2]
  · rw [if_neg hc]

theorem isAlpha_toLower (c : Char) : (Char.toLower c).isAlpha = c.isAlpha := by
  unfold Char.toLower
  simp only []
  by_cases hc : Char.toNat c ≥ 65 ∧ Char.toNat c ≤ 90
  · rw [if_pos hc]
    have hv : (Char.ofNat (Char.toNat c + 32)).toNat = Char.toNat c + 32 :=
      char_ofNat_toNat_lt (by omega)
    have h1 : (Char.ofNat (Char.toNat c + 32)).isAlpha = true := by
      rw [char_isAlpha_iff, hv]; omega
    have h2 : c.isAlpha = true := by
      rw [char_isAlpha_iff]; omega
    rw [h1, h2]
  · rw [if_neg hc]

theorem toUpper_toUpper (c : Char) : c.toUpper.toUpper = c.toUpper := by
  unfold Char.toUpper
  simp only []
  by_cases hc : Char.toNat c ≥ 97 ∧ Char.toNat c ≤ 122
  · rw [if_pos hc]
    have hv : (Char.ofNat (Char.toNat c - 32)).toNat = Char.toNat c - 32 :=
      char_ofNat_toNat_lt (by omega)
    rw [if_neg (by omega)]
  · rw [if_neg hc, if_neg hc]

theorem toLower_toLower (c : Char) : c.toLower.toLower = c.toLower := by
  unfold Char.toLower
  simp only []
  by_cases hc : Char.toNat c ≥ 65 ∧ Char.toNat c ≤ 90
  · rw [if_pos hc]
    have hv : (Char.ofNat (Char.toNat c + 32)).toNat = Char.toNat c + 32 :=
      char_ofNat_toNat_lt (by omega)
    rw [if_neg (by omega)]
  · rw [if_neg hc, if_neg hc]

theorem pyTitleAux_idem (l : List Char) : ∀ b : Bool,
    pyTitleAux b (pyTitleAux b l) = pyTitleAux b l := by
  induction l with
  | nil => intro b; rfl
  | cons c cs ih =>
    intro b
    by_cases hca : c.isAlpha = true
    · cases b with
      | false =>
        simp only [pyTitleAux, hca, if_true, Bool.false_eq_true, if_false,
          isAlpha_toUpper, toUpper_toUpper, ih]
      | true =>
        simp only [pyTitleAux, hca, if_true, isAlpha_toLower, toLower_toLower, ih]
    · have hca' : c.isAlpha = false := by
        cases h : c.isAlpha
        · rfl
        · exact absurd h hca
      simp only [pyTitleAux, hca', Bool.false_eq_true, if_false, ih]

/-- Python `title()` is idempotent: its results are title-cased. -/
theorem pyTitle_idem (s : String) : pyTitle (pyTitle s) = pyTitle s := by
  unfold pyTitle
  exact congrArg String.mk (pyTitleAux_idem s.toList false)

/-- Python truthiness of a string is non-emptiness. -/
theorem strNe_iff (s : String) : (!s.isEmpty) = true ↔ s ≠ "" := by
  cases h : s.isEmpty with
  | true =>
    have hs := (String.isEmpty_iff s).mp h
    simp [h, hs]
  | false =>
    have hs : s ≠ "" := fun he => absurd (he ▸ h) (by decide)
    simp [h, hs]

/-! ## Claim theorems -/

/-- C1: the claim says a session-level failure after N accepted records must
still yield those N records.  The code's outer `except Exception` handler
returns `[]` instead: with one record accepted on pass 0 and an unexpected
exception on pass 1, `extract_all_listings` returns the empty list, although
the same run without the failure accumulates two records (and pass 0 alone
had already accepted one). -/
theorem C1_partial_results_discarded :
    extract_all_listings ⟨2, 5⟩ (fun _ => [{ cardText := "1 BHK" }]) (some 1) = [] ∧
    (processCards ⟨2, 5⟩ [{ cardText := "1 BHK" }] []).length = 1 ∧
    (extract_all_listings ⟨2, 5⟩ (fun _ => [{ cardText := "1 BHK" }]) none).length = 2 := by
  refine ⟨?_, ?_, ?_⟩ <;> rfl

/-- C2: the Card Validator accepts a record iff it has one of
building name / price / apartment type non-empty AND (one of apartment type /
buildup area / bathrooms / facing / parking non-empty, or at least one
nearby place, or at least one image); a record with building name, price and
apartment type all empty is rejected whatever the other fields hold — in
particular one populated only with `nearby_places`. -/
theorem C2_validator_characterization :
    (∀ ld : ListingData, validate_listing_data ld = true ↔
      ((ld.building_name ≠ "" ∨ ld.price ≠ "" ∨ ld.apartment_type ≠ "") ∧
        ((ld.apartment_type ≠ "" ∨ ld.buildup_area ≠ "" ∨ ld.bathrooms ≠ "" ∨
            ld.facing ≠ "" ∨ ld.parking ≠ "") ∨
          1 ≤ ld.nearby_places.length ∨ 1 ≤ ld.image_count))) ∧
    (∀ (emi area fac bath park fl fur age broker ver poss : String)
        (nearby : List String) (count : Nat) (urls : List String)
        (links : List LinkData) (amen : List String),
      validate_listing_data
        { building_name := "", price := "", emi := emi, buildup_area := area,
          facing := fac, apartment_type := "", bathrooms := bath,
          parking := park, floorInfo := fl, furnishing := fur, age := age,
          nearby_places := nearby, image_count := count, image_urls := urls,
          links := links, broker_info := broker, verification_status := ver,
          possession_date := poss, additional_amenities := amen } = false) ∧
    validate_listing_data { nearby_places := ["City Hospital"] } = false := by
  refine ⟨?_, fun _ _ _ _ _ _ _ _ _ _ _ _ _ _ _ _ => rfl, rfl⟩
  intro ld
  simp only [validate_listing_data]
  by_cases hb : (!ld.building_name.isEmpty || !ld.price.isEmpty ||
      !ld.apartment_type.isEmpty) = true
  · rw [if_neg (by simp [hb])]
    have hb' : ld.building_name ≠ "" ∨ ld.price ≠ "" ∨ ld.apartment_type ≠ "" := by
      rcases Bool.or_eq_true_iff.mp hb with h | h
      · rcases Bool.or_eq_true_iff.mp h with h' | h'
        · exact Or.inl ((strNe_iff _).mp h')
        · exact Or.inr (Or.inl ((strNe_iff _).mp h'))
      · exact Or.inr (Or.inr ((strNe_iff _).mp h))
    simp only [Bool.or_eq_true, strNe_iff, decide_eq_true_eq]
    constructor
    · intro h
      refine ⟨hb', ?_⟩
      rcases h with (((((h | h) | h) | h) | h) | h) | h
      · exact Or.inl (Or.inl h)
      · exact Or.inl (Or.inr (Or.inl h))
      · exact Or.inl (Or.inr (Or.inr (Or.inl h)))
      · exact Or.inl (Or.inr (Or.inr (Or.inr (Or.inl h))))
      · exact Or.inl (Or.inr (Or.inr (Or.inr (Or.inr h))))
      · exact Or.inr (Or.inl (by omega))
      · exact Or.inr (Or.inr (by omega))
    · rintro ⟨-, h⟩
      rcases h with (h | h | h | h | h) | h | h
      · exact Or.inl (Or.inl (Or.inl (Or.inl (Or.inl (Or.inl h)))))
      · exact Or.inl (Or.inl (Or.inl (Or.inl (Or.inl (Or.inr h)))))
      · exact Or.inl (Or.inl (Or.inl (Or.inl (Or.inr h))))
      · exact Or.inl (Or.inl (Or.inl (Or.inr h)))
      · exact Or.inl (Or.inl (Or.inr h))
      · exact Or.inl (Or.inr (by omega))
      · exact Or.inr (by omega)
  · have hb2 : (!ld.building_name.isEmpty || !ld.price.isEmpty ||
        !ld.apartment_type.isEmpty) = false := Bool.eq_false_iff.mpr hb
    rw [if_pos (by simp [hb2])]
    refine iff_of_false (by simp) fun hcon => hb ?_
    rcases hcon.1 with h | h | h
    · exact Bool.or_eq_true_iff.mpr (Or.inl (Bool.or_eq_true_iff.mpr
        (Or.inl ((strNe_iff _).mpr h))))
    · exact Bool.or_eq_true_iff.mpr (Or.inl (Bool.or_eq_true_iff.mpr
        (Or.inr ((strNe_iff _).mpr h))))
    · exact Bool.or_eq_true_iff.mpr (Or.inr ((strNe_iff _).mpr h))

/-- A visible, well-sized, clickable element whose text contains `acres` and
the currency symbol but only one token of the code's vocabulary. -/
def acresElement : Element :=
  { text := "₹ 5 acres", width := 300, height := 200, clickableCount := 1 }

/-- C5 (counterexample): the claim's vocabulary lists `acres`, but
`_is_valid_property_card` in the cited source has no `acres` token: an
element whose text contains `acres` and `₹` (two tokens of the claim's
vocabulary, one of the code's) satisfies the claim's predicate and is
rejected by the code. -/
theorem C5_counterexample :
    card_valid_spec acresElement = true ∧
    is_valid_property_card acresElement = false :=
  ⟨rfl, rfl⟩

/-- C5 (amended): an element qualifies as a card iff it is visible, its box
is at least 200 px wide and 100 px high, its text contains at least two
tokens of the code's 12-token vocabulary (`₹`, lacs, crore, bhk, sqft,
bathroom, parking, facing, furnished, floor, possession, emi — without
`acres`), and it has at least one clickable descendant. -/
theorem C5_card_validity_amended :
    ∀ e : Element, is_valid_property_card e = true ↔
      (e.displayed = true ∧ 200 ≤ e.width ∧ 100 ≤ e.height ∧
        2 ≤ (property_indicators.filter
          fun ind => occurs ind (pyLower e.text)).length ∧
        1 ≤ e.clickableCount) := by
  intro e
  unfold is_valid_property_card indicatorCount
  by_cases hd : e.displayed
  · simp [hd]
    omega
  · simp [hd]

/-- C6: every realizable failure of one field's extraction is caught where
it arises and leaves only that field (group) empty: a failing nearby query
empties only `nearby_places`; a failing image query empties only
`image_urls`/`image_count`; a failing link query empties only `links`; the
title-selector and price-selector outcomes influence only `building_name`
and `price` respectively.  The whole record is discarded exactly when the
Validator rejects it. -/
theorem C6_failure_isolation :
    ∀ (i : CardInput) (t p : List (Option (List String))),
      extractCandidate { i with nearbyFail := true } =
        { extractCandidate i with nearby_places := [] } ∧
      extractCandidate { i with imgFail := true } =
        { extractCandidate i with image_urls := [], image_count := 0 } ∧
      extractCandidate { i with linksFail := true } =
        { extractCandidate i with links := [] } ∧
      extractCandidate { i with titleTexts := t } =
        { extractCandidate i with building_name := buildingNameOf t i.cardText } ∧
      extractCandidate { i with priceSelTexts := p } =
        { extractCandidate i with price :=
            (if !(priceFromText i.cardText).isEmpty then priceFromText i.cardText
             else priceFromSelectors p) } ∧
      (extract_comprehensive_card_data i = none ↔
        validate_listing_data (extractCandidate i) = false) := by
  intro i t p
  refine ⟨rfl, rfl, rfl, rfl, rfl, ?_⟩
  unfold extract_comprehensive_card_data
  by_cases h : validate_listing_data (extractCandidate i) = true <;> simp [h]

/-- C3: the strategy cascade short-circuits.  Strategies 2 and 3 are
universally quantified state transformers, so the result's independence from
them is exactly their non-execution: whenever the selector strategy yields
at least one card, the locator's output is the selector strategy's output,
whatever the other strategies would do; and when the selector strategy is
empty, a non-empty strategy 2 likewise settles the output. -/
theorem C3_cascade_short_circuit :
    ∀ (selHits : List (Option (List Element))) (seen : List String)
      (s2 s3 : List String → List Element × List String),
      ((selectorLoop selHits seen).1 ≠ [] →
        findCardsWith s2 s3 selHits seen = selectorLoop selHits seen) ∧
      ((selectorLoop selHits seen).1 = [] →
        (s2 (selectorLoop selHits seen).2).1 ≠ [] →
        findCardsWith s2 s3 selHits seen = s2 (selectorLoop selHits seen).2) := by
  intro selHits seen s2 s3
  unfold findCardsWith
  constructor
  · intro h
    rw [if_pos (by simp [List.isEmpty_iff, h])]
  · intro h h2
    rw [if_neg (by simp [List.isEmpty_iff, h]), if_pos (by simp [List.isEmpty_iff, h2])]

/-- A selector-discoverable card. -/
def decoyElem : Element :=
  { text := "₹45 Lacs 2 BHK", width := 300, height := 200, clickableCount := 1 }

/-- A card only the XPath strategy would discover. -/
def xpathOnlyElem : Element :=
  { text := "₹9 Lacs 3 BHK bathroom", width := 400, height := 300,
    clickableCount := 2, attrClass := "card" }

/-- A page with both fixtures seeded. -/
def c3Page : PageSnapshot :=
  { selectorHits := [some [decoyElem]],
    xpathHits := [some [{ elem := xpathOnlyElem }]],
    priceTextHits := some [] }

/-- C3 (witness): on the two-fixture page the locator's result is the
selector strategy's result — the XPath-only card is not found. -/
theorem C3_witness :
    find_property_cards_improved c3Page [] = selectorLoop c3Page.selectorHits [] :=
  (C3_cascade_short_circuit c3Page.selectorHits [] (fun s => xpathLoop c3Page.xpathHits s)
    (fun s => textPatternCards c3Page.priceTextHits s)).1 (by decide)

/-- Every collected image URL passed `_is_property_image`, hence is no
data-URI and carries no blocklisted keyword. -/
theorem is_property_image_facts (u : String) (h : is_property_image u = true) :
    pyStartsWith "data:" u = false ∧
    ∀ k ∈ exclude_keywords, occurs k (pyLower u) = false := by
  simp only [is_property_image] at h
  split at h
  · exact absurd h (by simp)
  · rename_i hc1
    split at h
    · exact absurd h (by simp)
    · rename_i hc2
      simp only [Bool.or_eq_true, not_or, Bool.not_eq_true] at hc1
      refine ⟨hc1.1.2, fun k hk => ?_⟩
      by_contra hk2
      rw [Bool.not_eq_false] at hk2
      exact hc2 (List.any_eq_true.mpr ⟨k, hk, hk2⟩)

theorem mem_imageUrlsOf {u : String} {srcs styles : List (Option String)}
    (h : u ∈ imageUrlsOf srcs styles) : is_property_image u = true := by
  unfold imageUrlsOf at h
  rw [List.mem_dedup] at h
  rcases List.mem_append.mp h with h | h
  · exact (List.mem_filter.mp h).2
  · unfold bgStyleUrls at h
    rw [List.mem_filterMap] at h
    obtain ⟨o, _, hu⟩ := h
    cases o with
    | none => exact absurd hu (by simp)
    | some st =>
      simp only at hu
      cases hfind : reFirst urlPatAt st with
      | none => rw [hfind] at hu; exact absurd hu (by simp)
      | some v =>
        rw [hfind] at hu
        simp only at hu
        split at hu
        · rename_i hv
          cases hu
          assumption
        · exact absurd hu (by simp)

/-- C7: an extracted record's image URLs contain no data-URI and no URL with
a blocklisted keyword (logo/icon/avatar/profile/banner/ad), contain no
duplicates, and — whenever the image sub-extractor ran and its card-text
re-read succeeded — the image count is the maximum of the URL count and the
textual photo-count indicator. -/
theorem C7_image_invariants_thm :
    ∀ i : CardInput,
      (extractCandidate i).image_urls.Nodup ∧
      (∀ u ∈ (extractCandidate i).image_urls,
        pyStartsWith "data:" u = false ∧
        ∀ k ∈ exclude_keywords, occurs k (pyLower u) = false) ∧
      (∀ t : String, i.imgFail = false → i.imgText = some t →
        (extractCandidate i).image_count =
          max (extractCandidate i).image_urls.length
            ((imageCountIndicator t).getD 0)) := by
  intro i
  refine ⟨?_, ?_, ?_⟩
  · show (if i.imgFail then [] else imageUrlsOf i.imgSrcs i.bgStyles).Nodup
    split
    · exact List.nodup_nil
    · exact List.nodup_dedup _
  · intro u hu
    have hu' : u ∈ (if i.imgFail then [] else imageUrlsOf i.imgSrcs i.bgStyles) := hu
    split at hu'
    · exact absurd hu' (by simp)
    · exact is_property_image_facts u (mem_imageUrlsOf hu')
  · intro t hf ht
    show (if i.imgFail then 0
      else imageCountOf (imageUrlsOf i.imgSrcs i.bgStyles) i.imgText) = _
    rw [if_neg (by simp [hf]), ht]
    show imageCountOf (imageUrlsOf i.imgSrcs i.bgStyles) (some t) = _
    have : (extractCandidate i).image_urls = imageUrlsOf i.imgSrcs i.bgStyles := by
      show (if i.imgFail then [] else _) = _
      rw [if_neg (by simp [hf])]
    rw [this]
    unfold imageCountOf
    show (match imageCountIndicator t with
      | some v => if (imageUrlsOf i.imgSrcs i.bgStyles).length < v then v
          else (imageUrlsOf i.imgSrcs i.bgStyles).length
      | none => (imageUrlsOf i.imgSrcs i.bgStyles).length) = _
    cases hind : imageCountIndicator t with
    | none => simp
    | some v =>
      simp only [Option.getD_some]
      split <;> omega

/-- A card with a duplicated property image, a logo image and a textual
`12 photos` indicator. -/
def c7Card : CardInput :=
  { cardText := "2 BHK",
    imgSrcs := [some "https://cdn.example/property1.jpg",
      some "https://cdn.example/property1.jpg", some "https://cdn.example/logo.png"],
    imgText := some "12 photos" }

/-- C7 (witness): the theorem applied to the fixture card — the count is the
max of URL count and the `12 photos` indicator, the URL list is
duplicate-free, and the surviving URL is clean. -/
theorem C7_witness :
    (extractCandidate c7Card).image_count =
      max (extractCandidate c7Card).image_urls.length
        ((imageCountIndicator "12 photos").getD 0) ∧
    (extractCandidate c7Card).image_urls.Nodup ∧
    (pyStartsWith "data:" "https://cdn.example/property1.jpg" = false ∧
      ∀ k ∈ exclude_keywords,
        occurs k (pyLower "https://cdn.example/property1.jpg") = false) :=
  ⟨(C7_image_invariants_thm c7Card).2.2 "12 photos" rfl rfl,
   (C7_image_invariants_thm c7Card).1,
   (C7_image_invariants_thm c7Card).2.1 _ (by decide)⟩

/-- Every entry of the nearby-places pipeline is the title-cased strip of
some raw regex match and is longer than three characters. -/
theorem mem_nearbyFromMatches {p : String} {place dist : List String}
    (h : p ∈ nearbyFromMatches place dist) :
    (∃ m, p = pyTitle (pyStrip m)) ∧ 3 < p.length := by
  unfold nearbyFromMatches at h
  have h2 := (List.take_sublist 15 _).subset h
  rw [List.mem_dedup] at h2
  rcases List.mem_append.mp h2 with h3 | h3
  · obtain ⟨hm, hc⟩ := List.mem_filter.mp h3
    obtain ⟨m, _, hm2⟩ := List.mem_map.mp hm
    simp only [Bool.and_eq_true, decide_eq_true_eq] at hc
    exact ⟨⟨m, hm2.symm⟩, hc.1⟩
  · obtain ⟨hm, hc⟩ := List.mem_filter.mp h3
    obtain ⟨m, _, hm2⟩ := List.mem_map.mp hm
    simp only [decide_eq_true_eq] at hc
    exact ⟨⟨m, hm2.symm⟩, hc⟩

/-- C8 (amended): an extracted record's nearby places number at most 15,
contain no duplicates, and every entry is title-cased and longer than three
characters — so the stop-words `The`, `And`, `For` can never appear.  (The
claim's blanket "no entry is a stop-word" fails: the distance-phrase path
applies only the length filter, so the four-character stop-word `With` can
appear — see the counterexample.) -/
theorem C8_nearby_amended :
    ∀ i : CardInput,
      (extractCandidate i).nearby_places.length ≤ 15 ∧
      (extractCandidate i).nearby_places.Nodup ∧
      ∀ p ∈ (extractCandidate i).nearby_places,
        pyTitle p = p ∧ 3 < p.length ∧ p ≠ "The" ∧ p ≠ "And" ∧ p ≠ "For" := by
  intro i
  rw [show (extractCandidate i).nearby_places =
    nearbyPlacesImproved i.nearbyFail i.cardText i.nearbyParentTexts from rfl]
  unfold nearbyPlacesImproved
  split
  · exact ⟨by simp, List.nodup_nil, by simp⟩
  · refine ⟨?_, ?_, ?_⟩
    · exact List.length_take_le _ _
    · exact (List.nodup_dedup _).sublist (List.take_sublist _ _)
    · intro p hp
      obtain ⟨⟨m, hm⟩, hl⟩ := mem_nearbyFromMatches hp
      refine ⟨by rw [hm, pyTitle_idem], hl, ?_, ?_, ?_⟩ <;>
        (intro he; rw [he] at hl; exact absurd hl (by decide))

/-- C8 (counterexample): the card text `5 min to with` makes the
distance-phrase pattern yield the place token `with`, which is title-cased
to the stop-word `With` and — being 4 characters long — survives the
distance path's length-only filter, so a stop-word appears in
`nearby_places`, contradicting the claim. -/
theorem C8_counterexample :
    (extractCandidate { cardText := "5 min to with" }).nearby_places = ["With"] ∧
    "With" ∈ nearby_stop_words :=
  ⟨rfl, by decide⟩

/-- C8 (witness): the amended theorem applied to a card naming a hospital. -/
theorem C8_witness :
    pyTitle "Near City Hospital" = "Near City Hospital" ∧
    3 < ("Near City Hospital" : String).length ∧
    ("Near City Hospital" : String) ≠ "The" ∧
    ("Near City Hospital" : String) ≠ "And" ∧
    ("Near City Hospital" : String) ≠ "For" :=
  (C8_nearby_amended { cardText := "near City Hospital" }).2.2
    "Near City Hospital" (by decide)

/-- The invariant a locator stage maintains on the run's fingerprint state:
the seen set only grows, every emitted card's fingerprint is recorded, the
emitted fingerprints are pairwise distinct, and none of them was already
seen. -/
def LocStep (g : List String → List Element × List String) : Prop :=
  ∀ seen : List String,
    (∀ s ∈ seen, s ∈ (g seen).2) ∧
    (∀ a ∈ (g seen).1, get_element_id a ∈ (g seen).2) ∧
    ((g seen).1.map get_element_id).Nodup ∧
    (∀ a ∈ (g seen).1, get_element_id a ∉ seen)

/-- The shared accumulation loop maintains the fingerprint invariant. -/
theorem dedupFold_inv {β : Type} (f : β → Element) :
    ∀ (items : List β) (seen : List String) (acc : List Element),
      (∀ a ∈ acc, get_element_id a ∈ seen) →
      ((acc.map get_element_id).Nodup) →
      (∀ s ∈ seen, s ∈ (dedupFold f items seen acc).2) ∧
      (∀ a ∈ (dedupFold f items seen acc).1,
        get_element_id a ∈ (dedupFold f items seen acc).2) ∧
      ((dedupFold f items seen acc).1.map get_element_id).Nodup ∧
      (∃ t, (dedupFold f items seen acc).1 = acc ++ t ∧
        ∀ a ∈ t, get_element_id a ∉ seen) := by
  intro items
  induction items with
  | nil =>
    intro seen acc h1 h2
    exact ⟨fun _ hs => hs, h1, h2, [], by simp [dedupFold], by simp⟩
  | cons b rest ih =>
    intro seen acc h1 h2
    simp only [dedupFold]
    by_cases hc : (is_valid_property_card (f b) &&
        !(seen.contains (get_element_id (f b)))) = true
    · rw [if_pos hc]
      have hnot : get_element_id (f b) ∉ seen := by
        rw [Bool.and_eq_true] at hc
        simpa using hc.2
      have h1' : ∀ a ∈ acc ++ [f b],
          get_element_id a ∈ get_element_id (f b) :: seen := by
        intro a ha
        rcases List.mem_append.mp ha with ha | ha
        · exact List.mem_cons_of_mem _ (h1 a ha)
        · rw [List.mem_singleton.mp ha]
          exact List.mem_cons_self _ _
      have h2' : ((acc ++ [f b]).map get_element_id).Nodup := by
        rw [List.map_append]
        refine List.Nodup.append h2 (List.nodup_singleton _) ?_
        intro x hx hx2
        obtain ⟨a, ha, rfl⟩ := List.mem_map.mp hx
        have hxe : get_element_id a = get_element_id (f b) := by simpa using hx2
        exact hnot (hxe ▸ h1 a ha)
      obtain ⟨g1, g2, g3, t, ht, htn⟩ :=
        ih (get_element_id (f b) :: seen) (acc ++ [f b]) h1' h2'
      refine ⟨fun s hs => g1 s (List.mem_cons_of_mem _ hs), g2, g3, f b :: t, ?_, ?_⟩
      · rw [ht]
        simp
      · intro a ha
        rcases List.mem_cons.mp ha with rfl | ha
        · exact hnot
        · exact fun hmem => htn a ha (List.mem_cons_of_mem _ hmem)
    · rw [if_neg hc]
      exact ih seen acc h1 h2

theorem optLoop_locStep {β : Type} (f : β → Element) :
    ∀ pats : List (Option (List β)), LocStep (optLoop f pats) := by
  intro pats
  induction pats with
  | nil =>
    intro seen
    exact ⟨fun _ hs => hs, by simp [optLoop], by simp [optLoop], by simp [optLoop]⟩
  | cons o rest ih =>
    intro seen
    cases o with
    | none =>
      simpa only [optLoop] using ih seen
    | some hits =>
      simp only [optLoop]
      obtain ⟨g1, g2, g3, t, ht, htn⟩ := dedupFold_inv f hits seen [] (by simp) (by simp)
      by_cases hemp : (dedupFold f hits seen []).1.isEmpty = true
      · rw [if_pos hemp]
        obtain ⟨k1, k2, k3, k4⟩ := ih ((dedupFold f hits seen []).2)
        exact ⟨fun s hs => k1 s (g1 s hs), k2, k3, fun a ha hm => k4 a ha (g1 _ hm)⟩
      · rw [if_neg hemp]
        refine ⟨g1, g2, g3, fun a ha => ?_⟩
        rw [show (dedupFold f hits seen []).1 = t by simpa using ht] at ha
        exact htn a ha

theorem textPattern_locStep (hits : Option (List XHit)) :
    LocStep (textPatternCards hits) := by
  intro seen
  cases hits with
  | none =>
    exact ⟨fun _ hs => hs, by simp [textPatternCards], by simp [textPatternCards],
      by simp [textPatternCards]⟩
  | some hs =>
    obtain ⟨g1, g2, g3, t, ht, htn⟩ :=
      dedupFold_inv (find_card_container 8) hs seen [] (by simp) (by simp)
    refine ⟨g1, g2, g3, fun a ha => ?_⟩
    have ha2 : a ∈ (dedupFold (find_card_container 8) hs seen []).1 := ha
    rw [ht] at ha2
    exact htn a (by simpa using ha2)

theorem findCardsWith_locStep (s2 s3 : List String → List Element × List String)
    (hs2 : LocStep s2) (hs3 : LocStep s3)
    (selHits : List (Option (List Element))) :
    LocStep (findCardsWith s2 s3 selHits) := by
  intro seen
  unfold findCardsWith
  have h1 := optLoop_locStep (fun e => e) selHits seen
  by_cases he1 : (!(selectorLoop selHits seen).1.isEmpty) = true
  · rw [if_pos he1]
    exact h1
  · rw [if_neg he1]
    have h2 := hs2 ((selectorLoop selHits seen).2)
    by_cases he2 : (!(s2 (selectorLoop selHits seen).2).1.isEmpty) = true
    · rw [if_pos he2]
      exact ⟨fun s hs => h2.1 s (h1.1 s hs), h2.2.1, h2.2.2.1,
        fun a ha hm => h2.2.2.2 a ha (h1.1 _ hm)⟩
    · rw [if_neg he2]
      have h3 := hs3 ((s2 (selectorLoop selHits seen).2).2)
      exact ⟨fun s hs => h3.1 s (h2.1 s (h1.1 s hs)), h3.2.1, h3.2.2.1,
        fun a ha hm => h3.2.2.2 a ha (h2.1 _ (h1.1 _ hm))⟩

theorem find_cards_locStep (p : PageSnapshot) :
    LocStep (find_property_cards_improved p) :=
  findCardsWith_locStep _ _ (optLoop_locStep _ p.xpathHits)
    (textPattern_locStep p.priceTextHits) p.selectorHits

theorem locatorRun_locStep (pages : List PageSnapshot) :
    LocStep (locatorRun pages) := by
  induction pages with
  | nil =>
    intro seen
    exact ⟨fun _ hs => hs, by simp [locatorRun], by simp [locatorRun],
      by simp [locatorRun]⟩
  | cons p ps ih =>
    intro seen
    simp only [locatorRun]
    obtain ⟨h1, h2, h3, h4⟩ := find_cards_locStep p seen
    obtain ⟨k1, k2, k3, k4⟩ := ih ((find_property_cards_improved p seen).2)
    refine ⟨fun s hs => k1 s (h1 s hs), ?_, ?_, ?_⟩
    · intro a ha
      rcases List.mem_append.mp ha with ha | ha
      · exact k1 _ (h2 a ha)
      · exact k2 a ha
    · rw [List.map_append]
      refine List.Nodup.append h3 k3 ?_
      intro x hx hx2
      obtain ⟨a, ha, rfl⟩ := List.mem_map.mp hx
      obtain ⟨a2, ha2, he⟩ := List.mem_map.mp hx2
      exact k4 a2 ha2 (he ▸ h2 a ha)
    · intro a ha hm
      rcases List.mem_append.mp ha with ha | ha
      · exact h4 a ha hm
      · exact k4 a ha (h1 _ hm)

/-- C9: fingerprinting deduplicates within a run.  `_get_element_id` reads
only the element's id/class/test-id attributes, position, size and leading
text, so two sightings agreeing on those observations (whatever the live
handle) get the same fingerprint; and across a whole run of locator passes
the emitted cards' fingerprints are pairwise distinct — a second sighting of
the same element is dropped by the seen-fingerprint set and never yields a
second record. -/
theorem C9_fingerprint_idempotent :
    (∀ e e2 : Element,
      e.width = e2.width → e.height = e2.height →
      e.x = e2.x → e.y = e2.y → e.text = e2.text → e.attrId = e2.attrId →
      e.attrClass = e2.attrClass → e.attrTestid = e2.attrTestid →
      get_element_id e = get_element_id e2) ∧
    (∀ (pages : List PageSnapshot) (seen : List String),
      ((locatorRun pages seen).1.map get_element_id).Nodup) := by
  constructor
  · intro e e2 h2 h3 h4 h5 h6 h7 h8 h9
    unfold get_element_id
    rw [h2, h3, h4, h5, h6, h7, h8, h9]
  · intro pages seen
    exact (locatorRun_locStep pages seen).2.2.1

/-- A page whose selector strategy sees the fixture card. -/
def dupPage : PageSnapshot := { selectorHits := [some [decoyElem]] }

/-- C9 (witness): two handles to the same observed element share a
fingerprint, and a run that meets the same element on two successive passes
emits it once — no duplicate record. -/
theorem C9_witness :
    get_element_id { decoyElem with handle := 1 } =
      get_element_id { decoyElem with handle := 2 } ∧
    ((locatorRun [dupPage, dupPage] []).1.map get_element_id).Nodup ∧
    (locatorRun [dupPage, dupPage] []).1.length = 1 :=
  ⟨C9_fingerprint_idempotent.1 _ _ rfl rfl rfl rfl rfl rfl rfl rfl,
   C9_fingerprint_idempotent.2 [dupPage, dupPage] [], rfl⟩

/-- Once the accepted-record count reaches the target, the loop stops at
once with `DoneTarget`. -/
theorem crawlLoop_exit_target (cfg : DriverConfig) (pages : Nat → List CardInput)
    (failAt : Option Nat) (fuel scroll noCards passes : Nat) (rows : List OutRow)
    (h : cfg.maxListings ≤ rows.length) :
    crawlLoop cfg pages failAt fuel scroll noCards passes rows =
      .ok (rows, passes, .target) := by
  cases fuel <;> (simp only [crawlLoop]; rw [if_pos h])

theorem crawlLoop_step_empty (cfg : DriverConfig) (pages : Nat → List CardInput)
    (fuel scroll noCards passes : Nat) (rows : List OutRow)
    (h1 : rows.length < cfg.maxListings) (h2 : scroll < cfg.maxScrolls)
    (h3 : noCards + 1 < 3) (hp : pages scroll = []) :
    crawlLoop cfg pages none (fuel + 1) scroll noCards passes rows =
      crawlLoop cfg pages none fuel (scroll + 1) (noCards + 1) (passes + 1) rows := by
  simp only [crawlLoop]
  rw [if_neg (by omega), if_neg (by omega), if_neg (by omega), if_neg (by simp), hp]
  rw [if_pos (by simp), if_neg (by omega)]

theorem crawlLoop_step_empty_last (cfg : DriverConfig) (pages : Nat → List CardInput)
    (fuel scroll noCards passes : Nat) (rows : List OutRow)
    (h1 : rows.length < cfg.maxListings) (h2 : scroll < cfg.maxScrolls)
    (h3 : noCards < 3) (h4 : 3 ≤ noCards + 1) (hp : pages scroll = []) :
    crawlLoop cfg pages none (fuel + 1) scroll noCards passes rows =
      .ok (rows, passes + 1, .exhausted) := by
  simp only [crawlLoop]
  rw [if_neg (by omega), if_neg (by omega), if_neg (by omega), if_neg (by simp), hp]
  rw [if_pos (by simp), if_pos (by omega)]

theorem crawlLoop_step_cards (cfg : DriverConfig) (pages : Nat → List CardInput)
    (fuel scroll noCards passes : Nat) (rows : List OutRow)
    (h1 : rows.length < cfg.maxListings) (h2 : scroll < cfg.maxScrolls)
    (h3 : noCards < 3) (hp : pages scroll ≠ []) :
    crawlLoop cfg pages none (fuel + 1) scroll noCards passes rows =
      crawlLoop cfg pages none fuel (scroll + 1) 0 (passes + 1)
        (processCards cfg (pages scroll) rows) := by
  simp only [crawlLoop]
  rw [if_neg (by omega), if_neg (by omega), if_neg (by omega), if_neg (by simp)]
  rw [if_neg (by simp [List.isEmpty_iff, hp])]

/-- With an always-empty locator the loop exits `DoneExhausted` after the
remaining consecutive-empty budget, never touching the row list. -/
theorem crawlLoop_allEmpty (cfg : DriverConfig) (pages : Nat → List CardInput)
    (hp : ∀ n, pages n = []) (hml : 1 ≤ cfg.maxListings) :
    ∀ (d fuel scroll noCards passes : Nat),
      noCards + d = 3 → 1 ≤ d → scroll + d ≤ cfg.maxScrolls → d ≤ fuel + 1 →
      crawlLoop cfg pages none (fuel + 1) scroll noCards passes [] =
        .ok ([], passes + d, .exhausted) := by
  intro d
  induction d with
  | zero => intro _ _ _ _ _ h1; exact absurd h1 (by omega)
  | succ d ih =>
    intro fuel scroll noCards passes hsum _ hs hf
    by_cases hd0 : d = 0
    · subst hd0
      rw [crawlLoop_step_empty_last cfg pages fuel scroll noCards passes []
        (by simp; omega) (by omega) (by omega) (by omega) (hp scroll)]
    · obtain ⟨f2, rfl⟩ : ∃ f2, fuel = f2 + 1 := ⟨fuel - 1, by omega⟩
      rw [crawlLoop_step_empty cfg pages (f2 + 1) scroll noCards passes []
        (by simp; omega) (by omega) (by omega) (hp scroll)]
      rw [ih f2 (scroll + 1) (noCards + 1) (passes + 1) (by omega) (by omega)
        (by omega) (by omega)]
      have hpp : passes + 1 + d = passes + (d + 1) := by omega
      rw [hpp]

/-- When every card of a pass is accepted, the inner card loop fills the
rows up to the target and not beyond. -/
theorem processCards_len (cfg : DriverConfig) :
    ∀ (cards : List CardInput) (rows : List OutRow),
      (∀ c ∈ cards, acceptedCard c = true) →
      (processCards cfg cards rows).length =
        if cfg.maxListings ≤ rows.length then rows.length
        else min (rows.length + cards.length) cfg.maxListings := by
  intro cards
  induction cards with
  | nil =>
    intro rows _
    by_cases h : cfg.maxListings ≤ rows.length
    · simp [processCards, h]
    · simp only [processCards, List.length_nil]
      rw [if_neg h]
      omega
  | cons c cs ih =>
    intro rows hacc
    by_cases h : cfg.maxListings ≤ rows.length
    · rw [if_pos h]
      simp only [processCards]
      rw [if_pos h]
    · rw [if_neg h]
      have hc := hacc c (List.mem_cons_self _ _)
      unfold acceptedCard at hc
      cases hec : extract_comprehensive_card_data c with
      | none => rw [hec] at hc; exact absurd hc (by simp)
      | some ld =>
        rw [hec] at hc
        simp only at hc
        simp only [processCards]
        rw [if_neg h]
        simp only [hec]
        rw [if_pos hc]
        rw [ih (rows ++ [listing_data_to_dict ld (rows.length + 1)])
          (fun x hx => hacc x (List.mem_cons_of_mem _ hx))]
        simp only [List.length_append, List.length_cons, List.length_nil]
        by_cases h2 : cfg.maxListings ≤ rows.length + 1
        · rw [if_pos (by omega : cfg.maxListings ≤ rows.length + (0 + 1))]
          omega
        · rw [if_neg (by omega : ¬cfg.maxListings ≤ rows.length + (0 + 1))]
          omega

/-- C4: the driver's stopping conditions.  (a) With a locator that always
returns zero cards, the run ends `DoneExhausted` after exactly three
consecutive empty passes — the pass counter is exactly 3.  (b) With a first
page holding at least `maxListings` all-accepted cards, the run ends
`DoneTarget` after exactly one pass with exactly `maxListings` records —
the remaining cards of the page are left unprocessed. -/
theorem C4_driver_stopping :
    (∀ cfg : DriverConfig, 1 ≤ cfg.maxListings → 3 ≤ cfg.maxScrolls →
      extract_all_listings_run cfg (fun _ => []) none = .ok ([], 3, .exhausted)) ∧
    (∀ (cfg : DriverConfig) (pages : Nat → List CardInput),
      1 ≤ cfg.maxListings → 1 ≤ cfg.maxScrolls →
      cfg.maxListings ≤ (pages 0).length →
      (∀ c ∈ pages 0, acceptedCard c = true) →
      extract_all_listings_run cfg pages none =
        .ok (processCards cfg (pages 0) [], 1, .target) ∧
      (processCards cfg (pages 0) []).length = cfg.maxListings) := by
  constructor
  · intro cfg h1 h3
    unfold extract_all_listings_run
    obtain ⟨m, hm⟩ : ∃ m, cfg.maxScrolls = m + 1 := ⟨cfg.maxScrolls - 1, by omega⟩
    rw [hm]
    exact crawlLoop_allEmpty cfg _ (fun _ => rfl) h1 3 m 0 0 0 (by omega) (by omega)
      (by omega) (by omega)
  · intro cfg pages h1 hs hlen hacc
    have hlen2 : (processCards cfg (pages 0) []).length = cfg.maxListings := by
      rw [processCards_len cfg (pages 0) [] hacc]
      simp only [List.length_nil]
      rw [if_neg (by omega)]
      omega
    have hne : pages 0 ≠ [] := by
      intro he
      rw [he] at hlen
      simp at hlen
      omega
    refine ⟨?_, hlen2⟩
    unfold extract_all_listings_run
    obtain ⟨m, hm⟩ : ∃ m, cfg.maxScrolls = m + 1 := ⟨cfg.maxScrolls - 1, by omega⟩
    rw [hm]
    rw [crawlLoop_step_cards cfg pages m 0 0 0 [] (by simp; omega) (by omega)
      (by omega) hne]
    exact crawlLoop_exit_target cfg pages none m 1 0 1 _ (by omega)

/-- A pass that always offers three accepted one-bedroom cards. -/
def c4Pages : Nat → List CardInput :=
  fun _ => [{ cardText := "1 BHK" }, { cardText := "1 BHK" }, { cardText := "1 BHK" }]

/-- C4 (witness): the theorem at concrete configurations — three empty
passes then `DoneExhausted`; one pass with three accepted cards and a
target of two then `DoneTarget` with two records. -/
theorem C4_witness :
    extract_all_listings_run ⟨1, 3⟩ (fun _ => []) none = .ok ([], 3, .exhausted) ∧
    extract_all_listings_run ⟨2, 5⟩ c4Pages none =
      .ok (processCards ⟨2, 5⟩ (c4Pages 0) [], 1, .target) ∧
    (processCards ⟨2, 5⟩ (c4Pages 0) []).length = 2 :=
  ⟨C4_driver_stopping.1 ⟨1, 3⟩ (by decide) (by decide),
   (C4_driver_stopping.2 ⟨2, 5⟩ c4Pages (by decide) (by decide) (by decide) (by decide)).1,
   (C4_driver_stopping.2 ⟨2, 5⟩ c4Pages (by decide) (by decide) (by decide) (by decide)).2⟩

/-- `reFirstAux` propagates any property that the pattern matcher
guarantees of its payload. -/
theorem reFirstAux_sound {α : Type} (m : Option Char → List Char → Option α)
    (P : α → Prop) (hm : ∀ prev l a, m prev l = some a → P a) :
    ∀ (prev : Option Char) (l : List Char) (a : α),
      reFirstAux m prev l = some a → P a := by
  intro prev l
  induction l generalizing prev with
  | nil => intro a h; exact hm _ _ _ h
  | cons c cs ih =>
    intro a h
    unfold reFirstAux at h
    cases hm2 : m prev (c :: cs) with
    | some r =>
      rw [hm2] at h
      exact hm _ _ _ (hm2.trans h)
    | none =>
      rw [hm2] at h
      exact ih (some c) a h

/-- Taking `digitsTake` characters is taking the leading digit run. -/
theorem take_digitsTake (l : List Char) :
    l.take (digitsTake l) = l.takeWhile Char.isDigit := by
  induction l with
  | nil => rfl
  | cons c cs ih =>
    by_cases h : c.isDigit = true
    · simp [digitsTake, List.takeWhile_cons, h] at ih ⊢
      exact ih
    · simp only [Bool.not_eq_true] at h
      simp [digitsTake, List.takeWhile_cons, h]

/-- Whatever group `numBeforeAt` captures is a nonempty digit string. -/
theorem numBeforeAt_digits (lit : String) (prev : Option Char) (l : List Char)
    (s : String) (h : numBeforeAt lit prev l = some s) :
    s ≠ "" ∧ ∀ c ∈ s.toList, c.isDigit = true := by
  simp only [numBeforeAt] at h
  split at h
  · exact absurd h (by simp)
  · rename_i hd
    split at h
    · have hs : s = ⟨l.take (digitsTake l)⟩ := (Option.some.inj h).symm
      subst hs
      rw [take_digitsTake]
      constructor
      · intro he
        have : (l.takeWhile Char.isDigit) = [] := congrArg String.toList he
        unfold digitsTake at hd
        rw [this] at hd
        exact hd (by simp)
      · intro c hc
        exact List.mem_takeWhile_imp hc
    · exact absurd h (by simp)

/-- Shape of the extracted apartment type: either no pattern matched and it
is empty, or it is `digits ++ " BHK"` — also for the `RK` and `Bedroom`
branches, whose f-strings append `" BHK"` to the captured group. -/
theorem apartmentType_shape (t : String) :
    apartmentTypeFromText t = "" ∨
      ∃ d : String, apartmentTypeFromText t = d ++ " BHK" ∧ d ≠ "" ∧
        ∀ c ∈ d.toList, c.isDigit = true := by
  unfold apartmentTypeFromText
  cases h1 : reFirst (numBeforeAt "bhk") t with
  | some d =>
    exact Or.inr ⟨d, rfl,
      (reFirstAux_sound _ _ (fun p l a h => numBeforeAt_digits "bhk" p l a h) _ _ _ h1).1,
      (reFirstAux_sound _ _ (fun p l a h => numBeforeAt_digits "bhk" p l a h) _ _ _ h1).2⟩
  | none =>
    cases h2 : reFirst (numBeforeAt "rk") t with
    | some d =>
      exact Or.inr ⟨d, rfl,
        (reFirstAux_sound _ _ (fun p l a h => numBeforeAt_digits "rk" p l a h) _ _ _ h2).1,
        (reFirstAux_sound _ _ (fun p l a h => numBeforeAt_digits "rk" p l a h) _ _ _ h2).2⟩
    | none =>
      cases h3 : reFirst (numBeforeAt "bedroom") t with
      | some d =>
        exact Or.inr ⟨d, rfl,
          (reFirstAux_sound _ _ (fun p l a h => numBeforeAt_digits "bedroom" p l a h) _ _ _ h3).1,
          (reFirstAux_sound _ _ (fun p l a h => numBeforeAt_digits "bedroom" p l a h) _ _ _ h3).2⟩
      | none => exact Or.inl rfl

/-- Stripping leaves a list alone when both ends are non-whitespace. -/
theorem stripList_of_ends (c : Char) (mid : List Char) (d : Char)
    (hc : c.isWhitespace = false) (hd : d.isWhitespace = false) :
    stripList (c :: (mid ++ [d])) = c :: (mid ++ [d]) := by
  unfold stripList
  rw [List.dropWhile_cons_of_neg (by simp [hc])]
  rw [show (c :: (mid ++ [d])).reverse = d :: (mid.reverse ++ [c]) by simp]
  rw [List.dropWhile_cons_of_neg (by simp [hd])]
  simp

/-- Upper-casing fixes a digit string. -/
theorem map_toUpper_digits (l : List Char) (h : ∀ c ∈ l, c.isDigit = true) :
    l.map Char.toUpper = l := by
  induction l with
  | nil => rfl
  | cons c cs ih =>
    rw [List.map_cons, toUpper_eq_self_of_isDigit c (h c (List.mem_cons_self _ _)),
      ih (fun x hx => h x (List.mem_cons_of_mem _ hx))]

/-- A nonempty string has a nonempty character list. -/
theorem toList_ne_nil_of_ne (d : String) (h : d ≠ "") : d.toList ≠ [] := by
  intro he
  apply h
  have : d = ⟨d.toList⟩ := rfl
  rw [this, he]

/-- Normalisation facts for a `digits ++ " BHK"` apartment type: the
driver's `.strip().upper()` fixes it, it never equals `"1 RK"`, and it
equals `"1 BHK"` exactly when the digits are `"1"`. -/
theorem apt_bhk_norm (d : String) (hne : d ≠ "")
    (hdig : ∀ c ∈ d.toList, c.isDigit = true) :
    pyUpper (pyStrip (d ++ " BHK")) = d ++ " BHK" ∧
    d ++ " BHK" ≠ "1 RK" ∧ (d ++ " BHK" = "1 BHK" ↔ d = "1") := by
  have htl : (d ++ " BHK").toList = d.toList ++ [' ', 'B', 'H', 'K'] := rfl
  obtain ⟨c, rest, hd⟩ : ∃ c rest, d.toList = c :: rest := by
    cases hcase : d.toList with
    | nil => exact absurd hcase (toList_ne_nil_of_ne d hne)
    | cons c rest => exact ⟨c, rest, rfl⟩
  have hshape : (d ++ " BHK").toList = c :: ((rest ++ [' ', 'B', 'H']) ++ ['K']) := by
    rw [htl, hd]
    simp
  refine ⟨?_, ?_, ?_⟩
  · have hstrip : pyStrip (d ++ " BHK") = d ++ " BHK" := by
      unfold pyStrip
      rw [hshape, stripList_of_ends c _ 'K'
        (isWhitespace_eq_false_of_isDigit c (hdig c (hd ▸ List.mem_cons_self _ _)))
        (by decide)]
      rw [← hshape]
      rfl
    rw [hstrip]
    unfold pyUpper
    rw [htl, List.map_append, map_toUpper_digits d.toList hdig]
    rfl
  · intro he
    have := congrArg String.toList he
    rw [htl] at this
    have hlen := congrArg List.length this
    simp at hlen
    rw [show d.length = d.toList.length from rfl, hd] at hlen
    simp at hlen
  · constructor
    · intro he
      have := congrArg String.toList he
      rw [htl] at this
      have h2 : d.toList ++ [' ', 'B', 'H', 'K'] = ['1'] ++ [' ', 'B', 'H', 'K'] := this
      have h3 := List.append_cancel_right h2
      have hdd : d = ⟨d.toList⟩ := rfl
      rw [hdd, h3]
    · intro he
      rw [he]
      rfl

/-- An apartment type of the extracted shape that survives the driver's
keep-filter can only be `"1 BHK"`. -/
theorem kept_apt_eq (apt : String)
    (hshape : apt = "" ∨ ∃ d, apt = d ++ " BHK" ∧ d ≠ "" ∧
      ∀ c ∈ d.toList, c.isDigit = true)
    (hkeep : (pyUpper (pyStrip apt) == "1 BHK" ||
      pyUpper (pyStrip apt) == "1 RK") = true) :
    apt = "1 BHK" := by
  rcases hshape with rfl | ⟨d, rfl, hne, hdig⟩
  · exact absurd hkeep (by decide)
  · obtain ⟨hnorm, hnrk, hbhk⟩ := apt_bhk_norm d hne hdig
    rw [hnorm] at hkeep
    rcases Bool.or_eq_true_iff.mp hkeep with h | h
    · exact beq_iff_eq.mp h
    · exact absurd (beq_iff_eq.mp h) hnrk

/-- A successful extraction returns the assembled candidate record. -/
theorem extract_some_candidate (c : CardInput) (ld : ListingData)
    (h : extract_comprehensive_card_data c = some ld) : ld = extractCandidate c := by
  simp only [extract_comprehensive_card_data] at h
  split at h
  · exact (Option.some.inj h).symm
  · exact absurd h (by simp)

/-- Every row the card loop appends has apartment type `"1 BHK"`. -/
theorem processCards_apt (cfg : DriverConfig) :
    ∀ (cards : List CardInput) (rows : List OutRow),
      (∀ r ∈ rows, r.apartment_type = "1 BHK") →
      ∀ r ∈ processCards cfg cards rows, r.apartment_type = "1 BHK" := by
  intro cards
  induction cards with
  | nil =>
    intro rows hr
    simpa [processCards] using hr
  | cons c cs ih =>
    intro rows hr
    simp only [processCards]
    by_cases h : cfg.maxListings ≤ rows.length
    · rw [if_pos h]
      exact hr
    · rw [if_neg h]
      cases hec : extract_comprehensive_card_data c with
      | none =>
        simp only [hec]
        exact ih rows hr
      | some ld =>
        simp only [hec]
        by_cases hk : (pyUpper (pyStrip ld.apartment_type) == "1 BHK" ||
            pyUpper (pyStrip ld.apartment_type) == "1 RK") = true
        · rw [if_pos hk]
          refine ih _ (fun r hrr => ?_)
          rcases List.mem_append.mp hrr with hrr | hrr
          · exact hr r hrr
          · rw [List.mem_singleton.mp hrr]
            show ld.apartment_type = "1 BHK"
            have hld := extract_some_candidate c ld hec
            have hshape : ld.apartment_type = "" ∨
                ∃ d, ld.apartment_type = d ++ " BHK" ∧ d ≠ "" ∧
                  ∀ ch ∈ d.toList, ch.isDigit = true := by
              rw [hld]
              exact apartmentType_shape c.cardText
            exact kept_apt_eq ld.apartment_type hshape hk
        · rw [if_neg hk]
          exact ih rows hr

/-- The crawl loop preserves the all-`"1 BHK"` invariant. -/
theorem crawlLoop_apt (cfg : DriverConfig) (pages : Nat → List CardInput)
    (failAt : Option Nat) :
    ∀ (fuel scroll noCards passes : Nat) (rows : List OutRow),
      (∀ r ∈ rows, r.apartment_type = "1 BHK") →
      ∀ (out : List OutRow) (p : Nat) (st : StopReason),
        crawlLoop cfg pages failAt fuel scroll noCards passes rows =
          .ok (out, p, st) →
        ∀ r ∈ out, r.apartment_type = "1 BHK" := by
  intro fuel
  induction fuel with
  | zero =>
    intro scroll noCards passes rows hr out p st heq
    simp only [crawlLoop] at heq
    split at heq
    · cases heq; exact hr
    · split at heq
      · cases heq; exact hr
      · split at heq
        · cases heq; exact hr
        · cases heq; exact hr
  | succ fuel ih =>
    intro scroll noCards passes rows hr out p st heq
    simp only [crawlLoop] at heq
    split at heq
    · cases heq; exact hr
    · split at heq
      · cases heq; exact hr
      · split at heq
        · cases heq; exact hr
        · split at heq
          · simp at heq
          · split at heq
            · split at heq
              · cases heq; exact hr
              · exact ih _ _ _ _ hr out p st heq
            · exact ih _ _ _ _ (processCards_apt cfg _ _ hr) out p st heq

/-- C10: the BHK regex cascade only ever produces an empty apartment type
or `digits ++ " BHK"` — the f-strings of the `RK` and `Bedroom` branches
also write `" BHK"`, so `"N RK"` text is normalised to `"N BHK"` and the
suffix `RK` is never preserved; consequently the driver's filter keeping
only `{"1 BHK", "1 RK"}` can only match `"1 BHK"`, and every record
returned by `extract_all_listings` has apartment type exactly `"1 BHK"`. -/
theorem C10_only_one_bhk :
    (∀ t : String, apartmentTypeFromText t = "" ∨
      ∃ d : String, apartmentTypeFromText t = d ++ " BHK" ∧ d ≠ "" ∧
        ∀ c ∈ d.toList, c.isDigit = true) ∧
    (∀ (cfg : DriverConfig) (pages : Nat → List CardInput) (failAt : Option Nat),
      ∀ r ∈ extract_all_listings cfg pages failAt,
        r.apartment_type = "1 BHK") := by
  refine ⟨apartmentType_shape, ?_⟩
  intro cfg pages failAt r hr
  unfold extract_all_listings at hr
  cases hrun : extract_all_listings_run cfg pages failAt with
  | error e =>
    rw [hrun] at hr
    simp at hr
  | ok v =>
    rw [hrun] at hr
    obtain ⟨rows, p, st⟩ := v
    exact crawlLoop_apt cfg pages failAt cfg.maxScrolls 0 0 0 [] (by simp)
      rows p st hrun r hr

/-- A card whose text says `"1 RK flat"`. -/
def c10Card : CardInput := { cardText := "1 RK flat" }

/-- C10 (witness): the record produced from a `"1 RK flat"` card is a
member of the output and carries apartment type `"1 BHK"`. -/
theorem C10_witness :
    (listing_data_to_dict (extractCandidate c10Card) 1).apartment_type = "1 BHK" :=
  C10_only_one_bhk.2 ⟨1, 1⟩ (fun _ => [c10Card]) none _ (by decide)

end Crawler
